import Mathlib

/-!
# PWECAC: TCP connection table decoder and process collectors

A shallow embedding of `resmoncollector/collector.go` and
`poolrescollector/collector.go`.

Conventions of the embedding.

* Go's unsigned machine integers are natural numbers; a conversion or an
  operation that can lose bits carries its modulus (`byte x` is `x % 256`,
  `uint16 x` is `x % 65536`, a left shift of a `uint32` is reduced modulo
  `2 ^ 32`, the sum of two `uint64` modulo `2 ^ 64`).
* The table buffer is a list of bytes.  The source reads it through
  `unsafe.Pointer` overlays; a read is modelled as an indexed read returning
  `none` when one of its bytes lies outside the buffer.  Offsets are computed
  in `uintptr`, taken to be 64 bits wide, so `4 + i * 24` does not wrap for a
  32-bit row index `i`; fields are read little-endian, as on every Windows
  target.
* The operating system and the process library are the environment: the two
  answers of `GetExtendedTcpTable`, the process handles and the result of
  each lookup on a handle (`none` for a lookup that returns an error).
* `ch <- metric` appends the metric to the list of emitted records; the error
  counter is a natural number threaded through the stages.  The record that
  `errors.Collect(ch)` sends is the counter itself, not a copy of its value:
  what it shows is read when the record is written out (`Metric.write`).
* A `float64` that the code only passes on is kept as its bit pattern; a
  conversion `float64(n)` of an integer is kept symbolic.
-/

/-! ## The process library (gopsutil) as seen by the collectors -/

namespace process

/-- A `float64` value the collectors only pass through, as its IEEE-754 bits. -/
structure Float64 where
  bits : Nat
deriving DecidableEq, Repr

/-- The `float64` literal `0`. -/
def Float64.zero : Float64 := ⟨0⟩

/-- The `float64` literal `1.0`. -/
def Float64.one : Float64 := ⟨0x3FF0000000000000⟩

/-- The fields of `net.Addr` the collectors read. -/
structure Addr where
  IP : String
  Port : Nat
deriving DecidableEq, Repr

/-- The fields of `net.ConnectionStat` the collectors read. -/
structure ConnectionStat where
  Laddr : Addr
  Raddr : Addr
deriving DecidableEq, Repr

/-- The fields of `process.IOCountersStat` the collectors read (`uint64`). -/
structure IOCountersStat where
  ReadBytes : Nat
  WriteBytes : Nat
deriving DecidableEq, Repr

/-- The fields of `process.MemoryInfoStat` the collectors read (`uint64`). -/
structure MemoryInfoStat where
  RSS : Nat
  VMS : Nat
deriving DecidableEq, Repr

/-- A process handle with the outcome of each lookup made on it during one
stage; `none` is a lookup that returns a non-nil error. -/
structure Process where
  Pid : Int
  Name : Option String
  Username : Option String
  CPUPercent : Option Float64
  MemoryInfo : Option MemoryInfoStat
  IOCounters : Option IOCountersStat
  Connections : Option (List ConnectionStat)
deriving DecidableEq, Repr

end process

/-! ## Metric records (prometheus) -/

namespace prometheus

/-- The numeric value of a metric record. -/
inductive Value where
  /-- A `float64` passed through unchanged. -/
  | float (f : process.Float64)
  /-- The conversion `float64(n)` of a `uint64`. -/
  | ofUint64 (n : Nat)
  /-- The error counter of the collector itself, as `Counter.Collect` sends
  it: the record holds no number of its own, its value is read from the
  counter when the record is written out. -/
  | counter
deriving DecidableEq, Repr

/-- The number a record shows when it is written out. -/
inductive Reading where
  | float (f : process.Float64)
  | ofUint64 (n : Nat)
  /-- The count of increments the counter holds. -/
  | count (n : Nat)
deriving DecidableEq, Repr

/-- The number read from a value when it is written out while the error
counter of its collector holds `errorsNow`. -/
def Value.write (errorsNow : Nat) : Value → Reading
  | Value.float f => Reading.float f
  | Value.ofUint64 n => Reading.ofUint64 n
  | Value.counter => Reading.count errorsNow

/-- A metric descriptor: fully-qualified name and variable label names. -/
structure Desc where
  fqName : String
  variableLabels : List String
deriving DecidableEq, Repr

/-- A metric record: descriptor, value, label values in descriptor order. -/
structure Metric where
  desc : Desc
  value : Value
  labelValues : List String
deriving DecidableEq, Repr

/-- A record as the exposition writes it out while the error counter of its
collector holds `errorsNow`: name and labels as sent, the value read then. -/
def Metric.write (errorsNow : Nat) (m : Metric) : Desc × Reading × List String :=
  (m.desc, m.value.write errorsNow, m.labelValues)

/-- The constructor `prometheus.MustNewConstMetric(desc, GaugeValue, value,
labelValues...)`.  Every call in the collectors passes as many label values as
the descriptor has labels, so the cardinality panic of the library is not
reachable. -/
def MustNewConstMetric (desc : Desc) (value : Value) (labelValues : List String) : Metric :=
  { desc := desc, value := value, labelValues := labelValues }

end prometheus

/-! ## resmoncollector -/

namespace resmoncollector

open process prometheus

def TCP_TABLE_OWNER_PID_ALL : Nat := 5

def MIB_TCP_STATE_CLOSED : Nat := 1
def MIB_TCP_STATE_LISTEN : Nat := 2
def MIB_TCP_STATE_SYN_SENT : Nat := 3
def MIB_TCP_STATE_SYN_RCVD : Nat := 4
def MIB_TCP_STATE_ESTAB : Nat := 5
def MIB_TCP_STATE_FIN_WAIT1 : Nat := 6
def MIB_TCP_STATE_FIN_WAIT2 : Nat := 7
def MIB_TCP_STATE_CLOSE_WAIT : Nat := 8
def MIB_TCP_STATE_CLOSING : Nat := 9
def MIB_TCP_STATE_LAST_ACK : Nat := 10
def MIB_TCP_STATE_TIME_WAIT : Nat := 11
def MIB_TCP_STATE_DELETE_TCB : Nat := 12

/-- The Windows error code `syscall.ERROR_INSUFFICIENT_BUFFER`. -/
def ERROR_INSUFFICIENT_BUFFER : Nat := 122

/-- Size in bytes of `uint32`, the header of `MIB_TCPTABLE_OWNER_PID`. -/
def sizeofUint32 : Nat := 4

/-- Size in bytes of `MIB_TCPROW_OWNER_PID`: six `uint32` fields. -/
def sizeofRow : Nat := 24

abbrev Byte := Fin 256

/-- Go conversion `byte(x)`. -/
def byte (x : Nat) : Nat := x % 256

/-- Go conversion `uint16(x)`. -/
def uint16 (x : Nat) : Nat := x % 65536

/-- Go conversion `int32(x)` of a `uint32`. -/
def int32 (x : Nat) : Int :=
  if x % 2 ^ 32 < 2 ^ 31 then ((x % 2 ^ 32 : Nat) : Int) else ((x % 2 ^ 32 : Nat) : Int) - 2 ^ 32

/-- Shift `x << k` on a `uint32`. -/
def shl32 (x k : Nat) : Nat := (x <<< k) % 2 ^ 32

/-- Dereference of a `uint32` at byte offset `off` of the buffer on a
little-endian machine; `none` when a byte of it is outside the buffer. -/
def readU32 (buffer : List Byte) (off : Nat) : Option Nat :=
  match buffer[off]?, buffer[off + 1]?, buffer[off + 2]?, buffer[off + 3]? with
  | some b0, some b1, some b2, some b3 =>
      some (b0.val + 256 * b1.val + 65536 * b2.val + 16777216 * b3.val)
  | _, _, _, _ => none

/-- The row overlay `MIB_TCPROW_OWNER_PID`. -/
structure MIB_TCPROW_OWNER_PID where
  State : Nat
  LocalAddr : Nat
  LocalPort : Nat
  RemoteAddr : Nat
  RemotePort : Nat
  OwningPid : Nat
deriving DecidableEq, Repr

structure ConnectionStats where
  LocalAddr : String
  RemoteAddr : String
  State : String
  ProcessID : Nat
  ProcessName : String
  Username : String
deriving DecidableEq, Repr

structure NetworkActivityStats where
  PID : Int
  ProcessName : String
  Address : String
  SendBytes : Nat
  RecvBytes : Nat
  TotalBytes : Nat
deriving DecidableEq, Repr

/-- The zero value of `NetworkActivityStats`, what a Go map yields for a
missing key. -/
def NetworkActivityStats.zeroValue : NetworkActivityStats :=
  { PID := 0, ProcessName := "", Address := "", SendBytes := 0, RecvBytes := 0, TotalBytes := 0 }

/-- The descriptors built by `NewCombinedNetworkCollector`. -/
def connectionsDesc : Desc :=
  { fqName := "windows_tcp_connections_total",
    variableLabels := ["local_address", "remote_address", "state", "pid", "process_name", "username"] }

def errorsDesc : Desc :=
  { fqName := "windows_network_collector_errors_total", variableLabels := [] }

def netBytesRecvDesc : Desc :=
  { fqName := "process_network_receive_bytes", variableLabels := ["pid", "process_name", "username"] }

def netBytesSentDesc : Desc :=
  { fqName := "process_network_transmit_bytes", variableLabels := ["pid", "process_name", "username"] }

def networkActivityDesc : Desc :=
  { fqName := "windows_network_activity", variableLabels := ["pid", "process_name", "address", "type"] }

/-- The record `collector.errors.Collect(ch)` sends: the counter itself. -/
def errorsMetric : Metric :=
  { desc := errorsDesc, value := Value.counter, labelValues := [] }

/-- The map literal of `tcpStateName`. -/
def states : List (Nat × String) :=
  [ (MIB_TCP_STATE_CLOSED, "CLOSED"),
    (MIB_TCP_STATE_LISTEN, "LISTEN"),
    (MIB_TCP_STATE_SYN_SENT, "SYN_SENT"),
    (MIB_TCP_STATE_SYN_RCVD, "SYN_RECEIVED"),
    (MIB_TCP_STATE_ESTAB, "ESTABLISHED"),
    (MIB_TCP_STATE_FIN_WAIT1, "FIN_WAIT_1"),
    (MIB_TCP_STATE_FIN_WAIT2, "FIN_WAIT_2"),
    (MIB_TCP_STATE_CLOSE_WAIT, "CLOSE_WAIT"),
    (MIB_TCP_STATE_CLOSING, "CLOSING"),
    (MIB_TCP_STATE_LAST_ACK, "LAST_ACK"),
    (MIB_TCP_STATE_TIME_WAIT, "TIME_WAIT"),
    (MIB_TCP_STATE_DELETE_TCB, "DELETE_TCB") ]

def tcpStateName (state : Nat) : String :=
  match states.lookup state with
  | some name => name
  | none => "UNKNOWN"

/-- The text `net.IPv4(a, b, c, d).String()` of the Go library: the four
octets in decimal, separated by dots. -/
def ipv4String (a b c d : Nat) : String :=
  toString a ++ "." ++ toString b ++ "." ++ toString c ++ "." ++ toString d

/-- The address text of a row field:
`net.IPv4(byte(x), byte(x>>8), byte(x>>16), byte(x>>24)).String()`. -/
def addrString (x : Nat) : String :=
  ipv4String (byte x) (byte (x >>> 8)) (byte (x >>> 16)) (byte (x >>> 24))

/-- The port of a row field: `uint16(x>>8) | uint16(x<<8)`. -/
def decodePort (x : Nat) : Nat :=
  uint16 (x >>> 8) ||| uint16 (shl32 x 8)

/-- The `fmt.Sprintf("%s:%d", ip, port)` text. -/
def hostPort (ip : String) (port : Nat) : String :=
  ip ++ ":" ++ toString port

/-- The wrapper `GetExtendedTcpTable`: the call's return code `r0` becomes the
error `syscall.Errno(r0)` when it is not zero, and nil otherwise. -/
def GetExtendedTcpTable (r0 : Nat) : Option Nat :=
  if r0 ≠ 0 then some r0 else none

/-- The operating system's side of the two table queries.  `sizeQuery` is the
answer to the call with a nil buffer: return code and the size it stores.
`fillQuery size` is the answer to the call with a buffer of `size` bytes:
return code and the bytes it writes from the start of the buffer. -/
structure TcpTableApi where
  sizeQuery : Nat × Nat
  fillQuery : Nat → Nat × List Byte

/-- The buffer `make([]byte, size)` after the system wrote `written` from its
start: its length stays `size`. -/
def filledBuffer (size : Nat) (written : List Byte) : List Byte :=
  (written ++ List.replicate size (0 : Byte)).take size

/-- What running a piece of the collector leads to: a normal return, the
runtime panic of indexing an empty slice, or a read through an unsafe pointer
outside the buffer. -/
inductive Exec (α : Type) where
  | ret (a : α)
  | indexPanic
  | readOutsideBuffer
deriving DecidableEq, Repr

/-- The errors `getTCPConnections` returns, with the code they wrap. -/
inductive TableError where
  | sizeQueryFailed (errno : Nat)
  | fillFailed (errno : Nat)
deriving DecidableEq, Repr

/-- The result of `getProcessDetails`: name, username, and whether the error
is non-nil. -/
def getProcessDetails (newProcess : Int → Option Process) (pid : Nat) : String × String × Bool :=
  match newProcess (int32 pid) with
  | none => ("unknown", "unknown", true)
  | some p =>
      let name := match p.Name with
        | some n => n
        | none => "unknown"
      let username := match p.Username with
        | some u => u
        | none => "unknown"
      (name, username, false)

/-- The overlay of row `i`: the six field reads at their offsets behind the
header. -/
def readRow (buffer : List Byte) (i : Nat) : Option MIB_TCPROW_OWNER_PID :=
  let rowOff := sizeofUint32 + i * sizeofRow
  match readU32 buffer rowOff, readU32 buffer (rowOff + 4), readU32 buffer (rowOff + 8),
    readU32 buffer (rowOff + 12), readU32 buffer (rowOff + 16), readU32 buffer (rowOff + 20) with
  | some st, some la, some lp, some ra, some rp, some pid =>
      some { State := st, LocalAddr := la, LocalPort := lp, RemoteAddr := ra,
             RemotePort := rp, OwningPid := pid }
  | _, _, _, _, _, _ => none

/-- The body of the row loop of `getTCPConnections` once the row is read. -/
def rowStats (newProcess : Int → Option Process) (row : MIB_TCPROW_OWNER_PID) : ConnectionStats :=
  let localAddr := addrString row.LocalAddr
  let remoteAddr := addrString row.RemoteAddr
  let localPort := decodePort row.LocalPort
  let remotePort := decodePort row.RemotePort
  let details := getProcessDetails newProcess row.OwningPid
  let processName := if details.2.2 then "unknown" else details.1
  let username := if details.2.2 then "unknown" else details.2.1
  { LocalAddr := hostPort localAddr localPort,
    RemoteAddr := hostPort remoteAddr remotePort,
    State := tcpStateName row.State,
    ProcessID := row.OwningPid,
    ProcessName := processName,
    Username := username }

/-- The loop `for i := uint32(0); i < table.NumEntries; i++` with `remaining`
iterations left, the next index `i` and the connections appended so far. -/
def rowLoop (newProcess : Int → Option Process) (buffer : List Byte) :
    Nat → Nat → List ConnectionStats → Option (List ConnectionStats)
  | 0, _, connections => some connections
  | remaining + 1, i, connections =>
      match readRow buffer i with
      | none => none
      | some row => rowLoop newProcess buffer remaining (i + 1) (connections ++ [rowStats newProcess row])

/-- The part of `getTCPConnections` from `buffer := make([]byte, size)` on. -/
def getTCPConnectionsFill (api : TcpTableApi) (newProcess : Int → Option Process) (size : Nat) :
    Exec (Except TableError (List ConnectionStats)) :=
  if size = 0 then Exec.indexPanic
  else
    let fill := api.fillQuery size
    let buffer := filledBuffer size fill.2
    match GetExtendedTcpTable fill.1 with
    | some err => Exec.ret (Except.error (TableError.fillFailed err))
    | none =>
        match readU32 buffer 0 with
        | none => Exec.readOutsideBuffer
        | some numEntries =>
            if numEntries = 0 then Exec.ret (Except.ok [])
            else
              match rowLoop newProcess buffer numEntries 0 [] with
              | none => Exec.readOutsideBuffer
              | some connections => Exec.ret (Except.ok connections)

def getTCPConnections (api : TcpTableApi) (newProcess : Int → Option Process) :
    Exec (Except TableError (List ConnectionStats)) :=
  match GetExtendedTcpTable api.sizeQuery.1 with
  | some err =>
      if err ≠ ERROR_INSUFFICIENT_BUFFER then Exec.ret (Except.error (TableError.sizeQueryFailed err))
      else getTCPConnectionsFill api newProcess api.sizeQuery.2
  | none => getTCPConnectionsFill api newProcess api.sizeQuery.2

/-- The record `collectTCPConnections` sends for one connection. -/
def connectionMetric (conn : ConnectionStats) : Metric :=
  MustNewConstMetric connectionsDesc (Value.float Float64.one)
    [conn.LocalAddr, conn.RemoteAddr, conn.State, toString conn.ProcessID,
     conn.ProcessName, conn.Username]

/-- The stage `collectTCPConnections`: the records sent and the error counter
afterwards, from the counter `errors` before. -/
def collectTCPConnections (api : TcpTableApi) (newProcess : Int → Option Process) (errors : Nat) :
    Exec (List Metric × Nat) :=
  match getTCPConnections api newProcess with
  | Exec.indexPanic => Exec.indexPanic
  | Exec.readOutsideBuffer => Exec.readOutsideBuffer
  | Exec.ret (Except.error _) => Exec.ret ([errorsMetric], errors + 1)
  | Exec.ret (Except.ok connections) => Exec.ret (connections.map connectionMetric, errors)

/-- The body of the process loop of `collectProcessNetworkStats`. -/
def processNetworkStats (p : Process) : List Metric :=
  match p.Name with
  | none => []
  | some name =>
      let username := match p.Username with
        | some u => u
        | none => "unknown"
      match p.IOCounters with
      | none => []
      | some io =>
          if io.ReadBytes > 0 ∨ io.WriteBytes > 0 then
            [ MustNewConstMetric netBytesRecvDesc (Value.ofUint64 io.ReadBytes)
                [toString p.Pid, name, username],
              MustNewConstMetric netBytesSentDesc (Value.ofUint64 io.WriteBytes)
                [toString p.Pid, name, username] ]
          else []

/-- The stage `collectProcessNetworkStats` on the answer `processes` of
`process.Processes()`. -/
def collectProcessNetworkStats (processes : Option (List Process)) (errors : Nat) :
    List Metric × Nat :=
  match processes with
  | none => ([], errors + 1)
  | some ps => (ps.flatMap processNetworkStats, errors)

/-- A Go `map[string]NetworkActivityStats` as an association list with
distinct keys.  Go leaves the iteration order of a map unspecified; the list
keeps the keys in order of first insertion, and the properties proved below
about the records of a map do not depend on that order. -/
abbrev AddressMap := List (String × NetworkActivityStats)

/-- The read `m[key]`: the zero value for a missing key. -/
def AddressMap.get (m : AddressMap) (key : String) : NetworkActivityStats :=
  match m.lookup key with
  | some v => v
  | none => NetworkActivityStats.zeroValue

/-- The write `m[key] = v`. -/
def AddressMap.set : AddressMap → String → NetworkActivityStats → AddressMap
  | [], key, v => [(key, v)]
  | (k, w) :: rest, key, v =>
      if k = key then (k, v) :: rest else (k, w) :: AddressMap.set rest key v

/-- Go's `+` on `uint64`. -/
def addUint64 (a b : Nat) : Nat := (a + b) % 2 ^ 64

/-- The address under which `collectNetworkActivity` files a connection:
the local address, replaced by the remote one when it is empty or a wildcard. -/
def selectAddr (conn : ConnectionStat) : String :=
  if conn.Laddr.IP = "" ∨ conn.Laddr.IP = "0.0.0.0" ∨ conn.Laddr.IP = "::" then conn.Raddr.IP
  else conn.Laddr.IP

/-- One iteration of the connection loop of `collectNetworkActivity`. -/
def addConnection (pid : Int) (name : String) (ioCounters : IOCountersStat)
    (addressStats : AddressMap) (conn : ConnectionStat) : AddressMap :=
  let addr := selectAddr conn
  if addr = "" then addressStats
  else
    let stats := addressStats.get addr
    let stats := { stats with PID := pid }
    let stats := { stats with ProcessName := name }
    let stats := { stats with Address := addr }
    let stats := { stats with SendBytes := ioCounters.WriteBytes }
    let stats := { stats with RecvBytes := ioCounters.ReadBytes }
    let stats := { stats with TotalBytes := addUint64 ioCounters.WriteBytes ioCounters.ReadBytes }
    addressStats.set addr stats

/-- The map `addressStats` of a process after the connection loop. -/
def addressStatsOf (pid : Int) (name : String) (ioCounters : IOCountersStat)
    (connections : List ConnectionStat) : AddressMap :=
  connections.foldl (addConnection pid name ioCounters) []

/-- The three records sent for one entry of `addressStats`. -/
def activityMetrics (stats : NetworkActivityStats) : List Metric :=
  [ MustNewConstMetric networkActivityDesc (Value.ofUint64 stats.SendBytes)
      [toString stats.PID, stats.ProcessName, stats.Address, "send"],
    MustNewConstMetric networkActivityDesc (Value.ofUint64 stats.RecvBytes)
      [toString stats.PID, stats.ProcessName, stats.Address, "receive"],
    MustNewConstMetric networkActivityDesc (Value.ofUint64 stats.TotalBytes)
      [toString stats.PID, stats.ProcessName, stats.Address, "total"] ]

/-- The activity records (the values of `addressStats`) of one process in the
loop of `collectNetworkActivity`; none when a lookup fails. -/
def processActivity (p : Process) : List NetworkActivityStats :=
  match p.Connections with
  | none => []
  | some connections =>
      match p.Name with
      | none => []
      | some name =>
          match p.IOCounters with
          | none => []
          | some ioCounters => (addressStatsOf p.Pid name ioCounters connections).map Prod.snd

/-- The stage `collectNetworkActivity` on the answer `processes` of
`process.Processes()`. -/
def collectNetworkActivity (processes : Option (List Process)) (errors : Nat) :
    List Metric × Nat :=
  match processes with
  | none => ([], errors + 1)
  | some ps => (ps.flatMap (fun p => (processActivity p).flatMap activityMetrics), errors)

/-- The environment of one run of `CombinedNetworkCollector.Collect`: the
table queries, `process.NewProcess`, and the answers of the two calls of
`process.Processes()`, one in each of the later stages. -/
structure Env where
  api : TcpTableApi
  newProcess : Int → Option Process
  statsProcesses : Option (List Process)
  activityProcesses : Option (List Process)

/-- The method `CombinedNetworkCollector.Collect`: the records sent on `ch`
in order and the error counter afterwards. -/
def Collect (env : Env) (errors : Nat) : Exec (List Metric × Nat) :=
  match collectTCPConnections env.api env.newProcess errors with
  | Exec.indexPanic => Exec.indexPanic
  | Exec.readOutsideBuffer => Exec.readOutsideBuffer
  | Exec.ret (m1, e1) =>
      let r2 := collectProcessNetworkStats env.statsProcesses e1
      let r3 := collectNetworkActivity env.activityProcesses r2.2
      Exec.ret (m1 ++ r2.1 ++ r3.1, r3.2)

end resmoncollector

/-! ## poolrescollector -/

namespace poolrescollector

open process prometheus

structure ProcessResourceStats where
  PID : Int
  ProcessName : String
  Username : String
  CPUPercent : Float64
  MemoryRSS : Nat
  MemoryVMS : Nat
  ReadBytes : Nat
  WriteBytes : Nat
deriving DecidableEq, Repr

/-- The descriptors built by `NewPoolResourceCollector`. -/
def processCPUDesc : Desc :=
  { fqName := "windows_process_cpu_usage_percent", variableLabels := ["pid", "process_name", "username"] }

def processMemRSSDesc : Desc :=
  { fqName := "windows_process_memory_rss_bytes", variableLabels := ["pid", "process_name", "username"] }

def processMemVMSDesc : Desc :=
  { fqName := "windows_process_memory_vms_bytes", variableLabels := ["pid", "process_name", "username"] }

def processDiskIODesc : Desc :=
  { fqName := "windows_process_disk_io_bytes",
    variableLabels := ["pid", "process_name", "username", "operation"] }

def errorsDesc : Desc :=
  { fqName := "windows_poolres_collector_errors_total", variableLabels := [] }

/-- The record `collector.errors.Collect(ch)` sends: the counter itself. -/
def errorsMetric : Metric :=
  { desc := errorsDesc, value := Value.counter, labelValues := [] }

/-- The method `getProcessStats`; `none` is the return `nil, err`. -/
def getProcessStats (p : Process) : Option ProcessResourceStats :=
  match p.Name with
  | none => none
  | some name =>
      let username := match p.Username with
        | some u => u
        | none => "unknown"
      let cpuPercent := match p.CPUPercent with
        | some c => c
        | none => Float64.zero
      match p.MemoryInfo with
      | none => none
      | some memInfo =>
          let ioCounters := match p.IOCounters with
            | some io => io
            | none => { ReadBytes := 0, WriteBytes := 0 }
          some { PID := p.Pid,
                 ProcessName := name,
                 Username := username,
                 CPUPercent := cpuPercent,
                 MemoryRSS := memInfo.RSS,
                 MemoryVMS := memInfo.VMS,
                 ReadBytes := ioCounters.ReadBytes,
                 WriteBytes := ioCounters.WriteBytes }

/-- The five records `Collect` sends for the statistics of one process. -/
def statsMetrics (stats : ProcessResourceStats) : List Metric :=
  [ MustNewConstMetric processCPUDesc (Value.float stats.CPUPercent)
      [toString stats.PID, stats.ProcessName, stats.Username],
    MustNewConstMetric processMemRSSDesc (Value.ofUint64 stats.MemoryRSS)
      [toString stats.PID, stats.ProcessName, stats.Username],
    MustNewConstMetric processMemVMSDesc (Value.ofUint64 stats.MemoryVMS)
      [toString stats.PID, stats.ProcessName, stats.Username],
    MustNewConstMetric processDiskIODesc (Value.ofUint64 stats.ReadBytes)
      [toString stats.PID, stats.ProcessName, stats.Username, "read"],
    MustNewConstMetric processDiskIODesc (Value.ofUint64 stats.WriteBytes)
      [toString stats.PID, stats.ProcessName, stats.Username, "write"] ]

/-- The body of the process loop of `Collect`. -/
def processMetrics (p : Process) : List Metric :=
  match getProcessStats p with
  | none => []
  | some stats => statsMetrics stats

/-- The method `PoolResourceCollector.Collect` on the answer `processes` of
`process.Processes()`: the records sent and the error counter afterwards. -/
def Collect (processes : Option (List Process)) (errors : Nat) : List Metric × Nat :=
  match processes with
  | none => ([errorsMetric], errors + 1)
  | some ps => (ps.flatMap processMetrics, errors)

end poolrescollector

/-! ## The exporter (package main) -/

namespace exporter

open process prometheus

/-- One pull of `/metrics` as wired by `main`: both registered collectors are
collected, each with its own error counter and its own answers from the
process library.  The result pairs the records and counter of the network
collector with those of the pool resource collector. -/
def scrape (env : resmoncollector.Env) (poolProcesses : Option (List Process))
    (netErrors poolErrors : Nat) :
    resmoncollector.Exec ((List Metric × Nat) × (List Metric × Nat)) :=
  match resmoncollector.Collect env netErrors with
  | resmoncollector.Exec.indexPanic => resmoncollector.Exec.indexPanic
  | resmoncollector.Exec.readOutsideBuffer => resmoncollector.Exec.readOutsideBuffer
  | resmoncollector.Exec.ret net =>
      resmoncollector.Exec.ret (net, poolrescollector.Collect poolProcesses poolErrors)

end exporter

/-! ## The table encoder of the specification

The encoder is the counterpart of the decoder in the specification's words:
a 4-byte little-endian count, then one 24-byte row per connection; addresses
as their four octets in memory order, ports in network byte order in the
first two bytes of their field with the upper 16 bits zero. -/

namespace encoder

open resmoncollector

/-- The byte with value `x % 256`. -/
def toByte (x : Nat) : Byte := ⟨x % 256, Nat.mod_lt x (by decide)⟩

/-- The four octets of an IPv4 address, in the order they are written. -/
structure Octets where
  a : Nat
  b : Nat
  c : Nat
  d : Nat
deriving DecidableEq, Repr

/-- One connection as handed to the encoder. -/
structure RowInput where
  state : Nat
  localAddr : Octets
  localPort : Nat
  remoteAddr : Octets
  remotePort : Nat
  pid : Nat
deriving DecidableEq, Repr

/-- The fields fit their width: 32-bit state and pid, 8-bit octets, 16-bit ports. -/
def RowInput.wellFormed (r : RowInput) : Prop :=
  r.state < 2 ^ 32 ∧ r.pid < 2 ^ 32 ∧ r.localPort < 65536 ∧ r.remotePort < 65536 ∧
  r.localAddr.a < 256 ∧ r.localAddr.b < 256 ∧ r.localAddr.c < 256 ∧ r.localAddr.d < 256 ∧
  r.remoteAddr.a < 256 ∧ r.remoteAddr.b < 256 ∧ r.remoteAddr.c < 256 ∧ r.remoteAddr.d < 256

instance (r : RowInput) : Decidable r.wellFormed := by
  unfold RowInput.wellFormed
  infer_instance

/-- A 32-bit value, little-endian. -/
def encodeU32 (x : Nat) : List Byte :=
  [toByte x, toByte (x / 256), toByte (x / 65536), toByte (x / 16777216)]

/-- An address field: the four octets in memory order. -/
def encodeAddr (o : Octets) : List Byte :=
  [toByte o.a, toByte o.b, toByte o.c, toByte o.d]

/-- A port field: the 16-bit port in network byte order, upper 16 bits zero. -/
def encodePort (port : Nat) : List Byte :=
  [toByte (port / 256), toByte port, toByte 0, toByte 0]

/-- A 24-byte row. -/
def encodeRow (r : RowInput) : List Byte :=
  encodeU32 r.state ++ encodeAddr r.localAddr ++ encodePort r.localPort ++
    encodeAddr r.remoteAddr ++ encodePort r.remotePort ++ encodeU32 r.pid

/-- The table: the count, then the rows. -/
def encodeTable (rows : List RowInput) : List Byte :=
  encodeU32 rows.length ++ rows.flatMap encodeRow

/-- The text "a.b.c.d:port" of an address and a port. -/
def endpointText (o : Octets) (port : Nat) : String :=
  ipv4String o.a o.b o.c o.d ++ ":" ++ toString port

/-- What the specification expects of the record of a row: owning pid, state
name, local and remote "address:port". -/
def expectedFields (r : RowInput) : Nat × String × String × String :=
  (r.pid, tcpStateName r.state, endpointText r.localAddr r.localPort,
    endpointText r.remoteAddr r.remotePort)

/-- The same four fields of a decoded record. -/
def recordFields (c : ConnectionStats) : Nat × String × String × String :=
  (c.ProcessID, c.State, c.LocalAddr, c.RemoteAddr)

/-- The row overlay the decoder reads back from an encoded row. -/
def rowOf (r : RowInput) : MIB_TCPROW_OWNER_PID :=
  { State := r.state,
    LocalAddr := r.localAddr.a + 256 * r.localAddr.b + 65536 * r.localAddr.c
      + 16777216 * r.localAddr.d,
    LocalPort := r.localPort / 256 + 256 * (r.localPort % 256),
    RemoteAddr := r.remoteAddr.a + 256 * r.remoteAddr.b + 65536 * r.remoteAddr.c
      + 16777216 * r.remoteAddr.d,
    RemotePort := r.remotePort / 256 + 256 * (r.remotePort % 256),
    OwningPid := r.pid }

end encoder

/-! ## Concrete environments -/

namespace examples

open process prometheus resmoncollector encoder

/-- Two connections: an established one from 127.0.0.1:8080 to 10.0.0.5:443
owned by pid 1234, and a listening one on 192.168.1.20:22 owned by pid 4. -/
def twoRows : List RowInput :=
  [ { state := 5, localAddr := ⟨127, 0, 0, 1⟩, localPort := 8080,
      remoteAddr := ⟨10, 0, 0, 5⟩, remotePort := 443, pid := 1234 },
    { state := 2, localAddr := ⟨192, 168, 1, 20⟩, localPort := 22,
      remoteAddr := ⟨0, 0, 0, 0⟩, remotePort := 0, pid := 4 } ]

/-- A system whose sizing query answers "buffer too small" with the size of
the encoding of `twoRows` and whose fill query writes that encoding. -/
def twoRowsApi : TcpTableApi :=
  { sizeQuery := (ERROR_INSUFFICIENT_BUFFER, 52),
    fillQuery := fun _ => (0, encodeTable twoRows) }

/-- A process library that knows no process. -/
def noProcess : Int → Option Process := fun _ => none

/-- A system that reports a 4-byte table whose header announces one row. -/
def shortTableApi : TcpTableApi :=
  { sizeQuery := (ERROR_INSUFFICIENT_BUFFER, 4),
    fillQuery := fun _ => (0, [1, 0, 0, 0]) }

/-- A system whose sizing query succeeds outright and reports size 0. -/
def zeroSizeApi : TcpTableApi :=
  { sizeQuery := (0, 0),
    fillQuery := fun _ => (0, []) }

/-- A system that reports an empty table: the header alone, count 0. -/
def emptyTableApi : TcpTableApi :=
  { sizeQuery := (ERROR_INSUFFICIENT_BUFFER, 4),
    fillQuery := fun _ => (0, [0, 0, 0, 0]) }

/-- A system whose sizing query fails with `ERROR_ACCESS_DENIED` (5). -/
def failingApi : TcpTableApi :=
  { sizeQuery := (5, 0),
    fillQuery := fun _ => (0, []) }

end examples

namespace examples

open process prometheus resmoncollector encoder

/-- A run in which the table is empty and both process enumerations answer
with no process. -/
def quietEnv : Env :=
  { api := emptyTableApi, newProcess := noProcess,
    statsProcesses := some [], activityProcesses := some [] }

/-- A run in which the sizing query fails and the process enumeration of
`collectProcessNetworkStats` fails too. -/
def failingEnv : Env :=
  { api := failingApi, newProcess := noProcess,
    statsProcesses := none, activityProcesses := some [] }

/-- A process with two connections from two local addresses and the I/O
counters read = 100, write = 50. -/
def busyProcess : Process :=
  { Pid := 4242, Name := some "svc.exe", Username := some "alice",
    CPUPercent := some ⟨0x4029000000000000⟩,
    MemoryInfo := some { RSS := 4096, VMS := 8192 },
    IOCounters := some { ReadBytes := 100, WriteBytes := 50 },
    Connections := some
      [ { Laddr := ⟨"10.0.0.1", 5000⟩, Raddr := ⟨"93.184.216.34", 443⟩ },
        { Laddr := ⟨"10.0.0.2", 5001⟩, Raddr := ⟨"93.184.216.34", 443⟩ } ] }

/-- A run in which the sizing query fails and `busyProcess` is the one
process of both enumerations. -/
def failingBusyEnv : Env :=
  { api := failingApi, newProcess := noProcess,
    statsProcesses := some [busyProcess], activityProcesses := some [busyProcess] }

/-- A process whose I/O counters are both `2 ^ 63`, with one connection. -/
def hugeProcess : Process :=
  { Pid := 7, Name := some "copy.exe", Username := none, CPUPercent := none,
    MemoryInfo := none,
    IOCounters := some { ReadBytes := 2 ^ 63, WriteBytes := 2 ^ 63 },
    Connections := some [ { Laddr := ⟨"10.0.0.1", 5000⟩, Raddr := ⟨"10.0.0.9", 445⟩ } ] }

/-- A process with one listening socket: local and remote address are the
IPv4 wildcard. -/
def listenerProcess : Process :=
  { Pid := 900, Name := some "httpd.exe", Username := none, CPUPercent := none,
    MemoryInfo := none,
    IOCounters := some { ReadBytes := 1, WriteBytes := 2 },
    Connections := some [ { Laddr := ⟨"0.0.0.0", 80⟩, Raddr := ⟨"0.0.0.0", 0⟩ } ] }

/-- A process whose CPU lookup fails and whose other lookups succeed. -/
def noCpuProcess : Process :=
  { Pid := 11, Name := some "idle.exe", Username := some "bob", CPUPercent := none,
    MemoryInfo := some { RSS := 10, VMS := 20 },
    IOCounters := some { ReadBytes := 3, WriteBytes := 4 },
    Connections := none }

end examples

/-! ## Auxiliary notions for the statements about the activity map -/

namespace resmoncollector

open process prometheus

/-- The entry the connection loop stores under `addr`: every field is
assigned, from the process and its I/O counters. -/
def activityRecord (pid : Int) (name : String) (ioCounters : IOCountersStat) (addr : String) :
    NetworkActivityStats :=
  { PID := pid, ProcessName := name, Address := addr,
    SendBytes := ioCounters.WriteBytes, RecvBytes := ioCounters.ReadBytes,
    TotalBytes := addUint64 ioCounters.WriteBytes ioCounters.ReadBytes }

/-- An address text is a wildcard for the local side: empty, all-zero IPv4 or
all-zero IPv6. -/
def isWildcard (addr : String) : Prop :=
  addr = "" ∨ addr = "0.0.0.0" ∨ addr = "::"

instance (addr : String) : Decidable (isWildcard addr) := by
  unfold isWildcard
  infer_instance

end resmoncollector

namespace examples

open process prometheus resmoncollector encoder

/-- A run in which the table is empty and the process enumeration of
`collectProcessNetworkStats` fails. -/
def statsFailEnv : Env :=
  { api := emptyTableApi, newProcess := noProcess,
    statsProcesses := none, activityProcesses := some [] }

end examples

/-! ## Properties: state names, ports and addresses -/

open process prometheus resmoncollector

/-- C4: `tcpStateName s` is "UNKNOWN" exactly when `s = 0` or `s > 12`; the
codes 1 to 12 have their fixed names, and these twelve names are pairwise
distinct. -/
theorem tcpStateName_table (s : Nat) :
    (tcpStateName s = "UNKNOWN" ↔ s = 0 ∨ s > 12) ∧
    tcpStateName 1 = "CLOSED" ∧ tcpStateName 2 = "LISTEN" ∧
    tcpStateName 3 = "SYN_SENT" ∧ tcpStateName 4 = "SYN_RECEIVED" ∧
    tcpStateName 5 = "ESTABLISHED" ∧ tcpStateName 6 = "FIN_WAIT_1" ∧
    tcpStateName 7 = "FIN_WAIT_2" ∧ tcpStateName 8 = "CLOSE_WAIT" ∧
    tcpStateName 9 = "CLOSING" ∧ tcpStateName 10 = "LAST_ACK" ∧
    tcpStateName 11 = "TIME_WAIT" ∧ tcpStateName 12 = "DELETE_TCB" ∧
    (∀ i j : Nat, 1 ≤ i → i ≤ 12 → 1 ≤ j → j ≤ 12 →
      tcpStateName i = tcpStateName j → i = j) := by
  refine ⟨?_, by decide, by decide, by decide, by decide, by decide, by decide, by decide,
    by decide, by decide, by decide, by decide, by decide, ?_⟩
  · constructor
    · intro h
      by_contra hn
      have h1 : 1 ≤ s := by omega
      have h2 : s ≤ 12 := by omega
      interval_cases s <;> revert h <;> decide
    · rintro (h | h)
      · subst h; decide
      · have e : states.lookup s = none := by
          simp only [states, MIB_TCP_STATE_CLOSED, MIB_TCP_STATE_LISTEN, MIB_TCP_STATE_SYN_SENT,
            MIB_TCP_STATE_SYN_RCVD, MIB_TCP_STATE_ESTAB, MIB_TCP_STATE_FIN_WAIT1,
            MIB_TCP_STATE_FIN_WAIT2, MIB_TCP_STATE_CLOSE_WAIT, MIB_TCP_STATE_CLOSING,
            MIB_TCP_STATE_LAST_ACK, MIB_TCP_STATE_TIME_WAIT, MIB_TCP_STATE_DELETE_TCB]
          have hne : ∀ k : Nat, k ≤ 12 → (s == k) = false := by
            intro k hk
            simp only [beq_eq_false_iff_ne, ne_eq]
            omega
          simp [List.lookup, hne]
        simp [tcpStateName, e]
  · intro i j hi1 hi2 hj1 hj2
    interval_cases i <;> interval_cases j <;> first | (intro _; rfl) | decide

/-- The mask `x & 0xFF` keeps the low byte. -/
theorem and_0xFF (x : Nat) : x &&& 0xFF = x % 256 :=
  Nat.and_pow_two_sub_one_eq_mod x 8

/-- A port field whose first byte in memory is `hi`, second is `lo` and whose
upper 16 bits are zero decodes to the port `256 * hi + lo`. -/
theorem decodePort_swap (hi lo : Nat) (hhi : hi < 256) (hlo : lo < 256) :
    decodePort (hi + 256 * lo) = 256 * hi + lo := by
  have h1 : uint16 ((hi + 256 * lo) >>> 8) = lo := by
    simp only [uint16, Nat.shiftRight_eq_div_pow]
    omega
  have h2 : uint16 (shl32 (hi + 256 * lo) 8) = 2 ^ 8 * hi := by
    simp only [uint16, shl32, Nat.shiftLeft_eq]
    omega
  have h3 : lo < 2 ^ 8 := by omega
  rw [decodePort, h1, h2, Nat.or_comm, ← Nat.mul_add_lt_is_or h3]

/-- When bits 16 to 23 of the field are zero, `decodePort` is the byte-swap of
the lower 16 bits. -/
theorem decodePort_of_clean_field (f : Nat) (h : (f >>> 16) % 256 = 0) :
    decodePort f = (((f &&& 0xFF) <<< 8) ||| ((f >>> 8) &&& 0xFF)) := by
  have h1 : uint16 (f >>> 8) = (f >>> 8) &&& 0xFF := by
    rw [and_0xFF]
    simp only [uint16, Nat.shiftRight_eq_div_pow] at h ⊢
    omega
  have h2 : uint16 (shl32 f 8) = (f &&& 0xFF) <<< 8 := by
    rw [and_0xFF]
    simp only [uint16, shl32, Nat.shiftLeft_eq]
    omega
  rw [decodePort, h1, h2, Nat.or_comm]

/-- C2: on the field `0x0020901F` (lower 16 bits: port 8080 in network byte
order; bit 21 set) `decodePort` yields 16272, whereas the byte-swap of the lower
16 bits, `((f & 0xFF) << 8) | ((f >> 8) & 0xFF)`, is 8080; with the upper 16 bits
zero (`0x901F`) it yields 8080. -/
theorem decodePort_upper_bits_leak :
    decodePort 0x0020901F = 16272 ∧
    (((0x0020901F &&& 0xFF) <<< 8) ||| ((0x0020901F >>> 8) &&& 0xFF)) = 8080 ∧
    decodePort 0x901F = 8080 := by
  decide

/-- C3: the address text of a row is the dotted-decimal text of the four
bytes of the field in memory order, `(a & 0xFF).((a >> 8) & 0xFF).((a >> 16) &
0xFF).((a >> 24) & 0xFF)`, in the local and the remote address of the record
built from the row; the bytes `7F 00 00 01` read as `0x0100007F` and give
"127.0.0.1". -/
theorem addrString_dotted (a : Nat) :
    addrString a =
      ipv4String (a &&& 0xFF) ((a >>> 8) &&& 0xFF) ((a >>> 16) &&& 0xFF) ((a >>> 24) &&& 0xFF) ∧
    (∀ (newProcess : Int → Option Process) (row : MIB_TCPROW_OWNER_PID),
      row.LocalAddr = a →
      (rowStats newProcess row).LocalAddr =
        hostPort (ipv4String (a &&& 0xFF) ((a >>> 8) &&& 0xFF) ((a >>> 16) &&& 0xFF)
          ((a >>> 24) &&& 0xFF)) (decodePort row.LocalPort)) ∧
    (∀ (newProcess : Int → Option Process) (row : MIB_TCPROW_OWNER_PID),
      row.RemoteAddr = a →
      (rowStats newProcess row).RemoteAddr =
        hostPort (ipv4String (a &&& 0xFF) ((a >>> 8) &&& 0xFF) ((a >>> 16) &&& 0xFF)
          ((a >>> 24) &&& 0xFF)) (decodePort row.RemotePort)) ∧
    readU32 [0x7F, 0x00, 0x00, 0x01] 0 = some 0x0100007F ∧
    addrString 0x0100007F = "127.0.0.1" := by
  have h : addrString a =
      ipv4String (a &&& 0xFF) ((a >>> 8) &&& 0xFF) ((a >>> 16) &&& 0xFF) ((a >>> 24) &&& 0xFF) := by
    simp only [addrString, byte, and_0xFF]
  refine ⟨h, ?_, ?_, by decide, by decide⟩
  · intro newProcess row hrow
    rw [← h, ← hrow]
    rfl
  · intro newProcess row hrow
    rw [← h, ← hrow]
    rfl

/-! ## Properties: decoding an encoded table -/

open encoder

theorem filledBuffer_length (size : Nat) (written : List Byte) :
    (filledBuffer size written).length = size := by
  simp [filledBuffer, List.length_take]

theorem filledBuffer_eq_self (written : List Byte) :
    filledBuffer written.length written = written := by
  simp [filledBuffer, List.take_append_eq_append_take]

theorem readU32_drop (buffer : List Byte) (n k : Nat) :
    readU32 buffer (n + k) = readU32 (buffer.drop n) k := by
  simp only [readU32, List.getElem?_drop, Nat.add_assoc]

theorem encodeRow_length (r : RowInput) : (encodeRow r).length = 24 := by
  simp [encodeRow, encodeU32, encodeAddr, encodePort]

theorem flatMap_encodeRow_length (rows : List RowInput) :
    (rows.flatMap encodeRow).length = 24 * rows.length := by
  induction rows with
  | nil => simp
  | cons r rest ih =>
      simp only [List.flatMap_cons, List.length_append, encodeRow_length, ih, List.length_cons]
      omega

theorem encodeTable_length (rows : List RowInput) :
    (encodeTable rows).length = 4 + 24 * rows.length := by
  rw [encodeTable, List.length_append, flatMap_encodeRow_length]
  rfl

theorem readU32_header (rows : List RowInput) (h : rows.length < 2 ^ 32) :
    readU32 (encodeTable rows) 0 = some rows.length := by
  simp only [encodeTable, encodeU32, readU32, toByte, List.cons_append, List.nil_append,
    List.getElem?_cons_zero, List.getElem?_cons_succ, Option.some.injEq]
  omega

theorem drop_encodeTable (done rest : List RowInput) :
    (encodeTable (done ++ rest)).drop (4 + done.length * 24) = rest.flatMap encodeRow := by
  have h : (encodeU32 (done ++ rest).length ++ done.flatMap encodeRow).length
      = 4 + done.length * 24 := by
    rw [List.length_append, flatMap_encodeRow_length]
    simp only [encodeU32, List.length_cons, List.length_nil]
    omega
  rw [encodeTable, List.flatMap_append, ← List.append_assoc, ← h, List.drop_left]

theorem readRow_encodeTable (done rest : List RowInput) (r : RowInput) (h : r.wellFormed) :
    readRow (encodeTable (done ++ r :: rest)) done.length = some (rowOf r) := by
  obtain ⟨h1, h2, h3, h4, h5, h6, h7, h8, h9, h10, h11, h12⟩ := h
  have hrow : ∀ k, readU32 (encodeTable (done ++ r :: rest)) (4 + done.length * 24 + k)
      = readU32 (encodeRow r ++ rest.flatMap encodeRow) k := by
    intro k
    rw [readU32_drop, drop_encodeTable, List.flatMap_cons]
  have hrow0 := hrow 0
  rw [Nat.add_zero] at hrow0
  simp only [readRow, sizeofUint32, sizeofRow, hrow, hrow0]
  simp only [encodeRow, encodeU32, encodeAddr, encodePort, readU32, toByte,
    List.cons_append, List.nil_append, List.append_assoc,
    List.getElem?_cons_zero, List.getElem?_cons_succ]
  simp only [rowOf, Option.some.injEq, MIB_TCPROW_OWNER_PID.mk.injEq]
  refine ⟨?_, ?_, ?_, ?_, ?_, ?_⟩ <;> omega

theorem addrString_octets (a b c d : Nat) (ha : a < 256) (hb : b < 256) (hc : c < 256)
    (hd : d < 256) :
    addrString (a + 256 * b + 65536 * c + 16777216 * d) = ipv4String a b c d := by
  have e1 : byte (a + 256 * b + 65536 * c + 16777216 * d) = a := by
    simp only [byte]; omega
  have e2 : byte ((a + 256 * b + 65536 * c + 16777216 * d) >>> 8) = b := by
    simp only [byte, Nat.shiftRight_eq_div_pow]; omega
  have e3 : byte ((a + 256 * b + 65536 * c + 16777216 * d) >>> 16) = c := by
    simp only [byte, Nat.shiftRight_eq_div_pow]; omega
  have e4 : byte ((a + 256 * b + 65536 * c + 16777216 * d) >>> 24) = d := by
    simp only [byte, Nat.shiftRight_eq_div_pow]; omega
  rw [addrString, e1, e2, e3, e4]

theorem decodePort_field (port : Nat) (h : port < 65536) :
    decodePort (port / 256 + 256 * (port % 256)) = port := by
  rw [decodePort_swap (port / 256) (port % 256) (by omega) (by omega)]
  omega

theorem recordFields_rowStats (newProcess : Int → Option Process) (r : RowInput)
    (h : r.wellFormed) :
    recordFields (rowStats newProcess (rowOf r)) = expectedFields r := by
  obtain ⟨_, _, h3, h4, h5, h6, h7, h8, h9, h10, h11, h12⟩ := h
  simp only [recordFields, rowStats, rowOf, expectedFields, endpointText, hostPort,
    addrString_octets _ _ _ _ h5 h6 h7 h8, addrString_octets _ _ _ _ h9 h10 h11 h12,
    decodePort_field _ h3, decodePort_field _ h4]

theorem rowLoop_encodeTable (newProcess : Int → Option Process) (rest : List RowInput) :
    ∀ (done : List RowInput) (acc : List ConnectionStats),
      (∀ r ∈ rest, r.wellFormed) →
      rowLoop newProcess (encodeTable (done ++ rest)) rest.length done.length acc
        = some (acc ++ rest.map (fun r => rowStats newProcess (rowOf r))) := by
  induction rest with
  | nil => intro done acc _; simp [rowLoop]
  | cons r rest ih =>
      intro done acc hwf
      have hr : r.wellFormed := hwf r (List.mem_cons_self r rest)
      have hrest : ∀ x ∈ rest, x.wellFormed := fun x hx => hwf x (List.mem_cons_of_mem r hx)
      have step := ih (done ++ [r]) (acc ++ [rowStats newProcess (rowOf r)]) hrest
      simp only [List.append_assoc, List.singleton_append, List.length_append,
        List.length_cons, List.length_nil, Nat.zero_add] at step
      simp only [List.length_cons, rowLoop, readRow_encodeTable done rest r hr, step,
        List.map_cons]

/-- C1: when the sizing query succeeds (outright or with "buffer too small")
and reports the size of the encoding of `rows`, and the fill query succeeds
and writes that encoding (a 4-byte little-endian count, then one 24-byte row
per connection, ports in network byte order with the upper 16 bits zero),
`getTCPConnections` returns without error exactly one record per row, in
row order, the record of a row carrying its pid, its state name and its local
and remote "address:port"; for no rows the result is the empty sequence. -/
theorem getTCPConnections_decodes_encoded (api : TcpTableApi)
    (newProcess : Int → Option Process) (rows : List RowInput)
    (hwf : ∀ r ∈ rows, r.wellFormed)
    (hsize : 4 + 24 * rows.length < 2 ^ 32)
    (hq1 : api.sizeQuery.1 = 0 ∨ api.sizeQuery.1 = ERROR_INSUFFICIENT_BUFFER)
    (hq1size : api.sizeQuery.2 = 4 + 24 * rows.length)
    (hq2 : api.fillQuery (4 + 24 * rows.length) = (0, encodeTable rows)) :
    ∃ connections : List ConnectionStats,
      getTCPConnections api newProcess = Exec.ret (Except.ok connections) ∧
      connections.length = rows.length ∧
      connections.map recordFields = rows.map expectedFields ∧
      (rows = [] → connections = []) := by
  refine ⟨rows.map (fun r => rowStats newProcess (rowOf r)), ?_, by simp, ?_, ?_⟩
  · have hfill : getTCPConnectionsFill api newProcess api.sizeQuery.2
        = Exec.ret (Except.ok (rows.map (fun r => rowStats newProcess (rowOf r)))) := by
      have hbuf : filledBuffer (4 + 24 * rows.length) (encodeTable rows) = encodeTable rows := by
        have := filledBuffer_eq_self (encodeTable rows)
        rwa [encodeTable_length] at this
      have hloop := rowLoop_encodeTable newProcess rows [] [] hwf
      simp only [List.nil_append, List.length_nil] at hloop
      simp only [getTCPConnectionsFill, hq1size, hq2, hbuf, GetExtendedTcpTable,
        readU32_header rows (by omega), hloop]
      cases rows with
      | nil => simp
      | cons r rest => simp
    rcases hq1 with h0 | h122
    · simp [getTCPConnections, GetExtendedTcpTable, h0, hfill]
    · simp [getTCPConnections, GetExtendedTcpTable, h122, hfill, ERROR_INSUFFICIENT_BUFFER]
  · rw [List.map_map]
    apply List.map_congr_left
    intro r hr
    exact recordFields_rowStats newProcess r (hwf r hr)
  · intro h; subst h; rfl

/-- Witness of C1 on the two connections of `examples.twoRows`. -/
theorem getTCPConnections_decodes_encoded_witness :
    (∃ connections : List ConnectionStats,
      getTCPConnections examples.twoRowsApi examples.noProcess
        = Exec.ret (Except.ok connections) ∧
      connections.length = examples.twoRows.length ∧
      connections.map recordFields = examples.twoRows.map expectedFields ∧
      (examples.twoRows = [] → connections = [])) ∧
    getTCPConnections examples.twoRowsApi examples.noProcess
      = Exec.ret (Except.ok
          [ { LocalAddr := "127.0.0.1:8080", RemoteAddr := "10.0.0.5:443",
              State := "ESTABLISHED", ProcessID := 1234,
              ProcessName := "unknown", Username := "unknown" },
            { LocalAddr := "192.168.1.20:22", RemoteAddr := "0.0.0.0:0",
              State := "LISTEN", ProcessID := 4,
              ProcessName := "unknown", Username := "unknown" } ]) :=
  ⟨getTCPConnections_decodes_encoded examples.twoRowsApi examples.noProcess examples.twoRows
    (by decide) (by decide) (Or.inr rfl) rfl rfl, rfl⟩

/-! ## Properties: reads and the buffer -/

theorem readU32_of_le (buffer : List Byte) (off : Nat) (h : off + 4 ≤ buffer.length) :
    ∃ v, readU32 buffer off = some v := by
  have h0 : off < buffer.length := by omega
  have h1 : off + 1 < buffer.length := by omega
  have h2 : off + 2 < buffer.length := by omega
  have h3 : off + 3 < buffer.length := by omega
  simp only [readU32, List.getElem?_eq_getElem h0, List.getElem?_eq_getElem h1,
    List.getElem?_eq_getElem h2, List.getElem?_eq_getElem h3]
  exact ⟨_, rfl⟩

theorem readRow_of_le (buffer : List Byte) (i : Nat) (h : 4 + 24 * (i + 1) ≤ buffer.length) :
    ∃ row, readRow buffer i = some row := by
  obtain ⟨v0, e0⟩ := readU32_of_le buffer (4 + i * 24) (by omega)
  obtain ⟨v1, e1⟩ := readU32_of_le buffer (4 + i * 24 + 4) (by omega)
  obtain ⟨v2, e2⟩ := readU32_of_le buffer (4 + i * 24 + 8) (by omega)
  obtain ⟨v3, e3⟩ := readU32_of_le buffer (4 + i * 24 + 12) (by omega)
  obtain ⟨v4, e4⟩ := readU32_of_le buffer (4 + i * 24 + 16) (by omega)
  obtain ⟨v5, e5⟩ := readU32_of_le buffer (4 + i * 24 + 20) (by omega)
  simp only [readRow, sizeofUint32, sizeofRow, e0, e1, e2, e3, e4, e5]
  exact ⟨_, rfl⟩

theorem rowLoop_of_le (newProcess : Int → Option Process) (buffer : List Byte) (n : Nat) :
    ∀ (i : Nat) (acc : List ConnectionStats), 4 + 24 * (i + n) ≤ buffer.length →
      ∃ connections, rowLoop newProcess buffer n i acc = some connections := by
  induction n with
  | zero => intro i acc _; exact ⟨acc, rfl⟩
  | succ n ih =>
      intro i acc h
      obtain ⟨row, hrow⟩ := readRow_of_le buffer i (by omega)
      obtain ⟨connections, hc⟩ := ih (i + 1) (acc ++ [rowStats newProcess row]) (by omega)
      exact ⟨connections, by simp only [rowLoop, hrow, hc]⟩

/-- C9 (as amended): when the buffer is long enough for the header (`L ≥ 4`)
and for the rows the header announces (`4 + 24 * c ≤ L` for the count `c` read
from it), every read of `getTCPConnections` lies inside the buffer: the run
returns, with the connections or with the error of a failed query. -/
theorem getTCPConnections_in_bounds (api : TcpTableApi) (newProcess : Int → Option Process)
    (hL : 4 ≤ api.sizeQuery.2)
    (hc : ∀ c, readU32 (filledBuffer api.sizeQuery.2 (api.fillQuery api.sizeQuery.2).2) 0 = some c →
      4 + 24 * c ≤ api.sizeQuery.2) :
    ∃ r, getTCPConnections api newProcess = Exec.ret r := by
  have hfill : ∃ r, getTCPConnectionsFill api newProcess api.sizeQuery.2 = Exec.ret r := by
    have hne : api.sizeQuery.2 ≠ 0 := by omega
    obtain ⟨c, hread⟩ := readU32_of_le
      (filledBuffer api.sizeQuery.2 (api.fillQuery api.sizeQuery.2).2) 0
      (by rw [filledBuffer_length]; omega)
    have hrows := hc c hread
    obtain ⟨connections, hloop⟩ := rowLoop_of_le newProcess
      (filledBuffer api.sizeQuery.2 (api.fillQuery api.sizeQuery.2).2) c 0 []
      (by rw [filledBuffer_length]; omega)
    simp only [getTCPConnectionsFill, hne, if_false, hread, hloop]
    cases GetExtendedTcpTable (api.fillQuery api.sizeQuery.2).1 with
    | some err => exact ⟨_, rfl⟩
    | none =>
        by_cases h0 : c = 0
        · exact ⟨Except.ok [], by simp only [h0, if_true]⟩
        · exact ⟨Except.ok connections, by simp only [h0, if_false]⟩
  unfold getTCPConnections
  cases GetExtendedTcpTable api.sizeQuery.1 with
  | none => exact hfill
  | some err =>
      by_cases h : err ≠ ERROR_INSUFFICIENT_BUFFER
      · exact ⟨Except.error (TableError.sizeQueryFailed err), by simp only [if_pos h]⟩
      · simp only [if_neg h]; exact hfill

/-- Witness of C9 (as amended) on the encoded table of `examples.twoRows`. -/
theorem getTCPConnections_in_bounds_witness :
    ∃ r, getTCPConnections examples.twoRowsApi examples.noProcess = Exec.ret r :=
  getTCPConnections_in_bounds examples.twoRowsApi examples.noProcess (by decide)
    (by
      intro c h
      have h2 : readU32 (filledBuffer examples.twoRowsApi.sizeQuery.2
          (examples.twoRowsApi.fillQuery examples.twoRowsApi.sizeQuery.2).2) 0 = some 2 := by
        decide
      rw [h2] at h
      cases h
      decide)

/-- C9 (counterexample): on a 4-byte buffer whose header announces one row the
read of the row falls outside the buffer, and on a reported size of 0 the
buffer cannot even be indexed. -/
theorem getTCPConnections_reads_outside :
    getTCPConnections examples.shortTableApi examples.noProcess = Exec.readOutsideBuffer ∧
    getTCPConnections examples.zeroSizeApi examples.noProcess = Exec.indexPanic := by
  constructor <;> rfl

/-! ## Properties: the stages of `Collect` -/

theorem processNetworkStats_desc (p : Process) :
    ∀ m ∈ processNetworkStats p, m.desc = netBytesRecvDesc ∨ m.desc = netBytesSentDesc := by
  intro m hm
  unfold processNetworkStats at hm
  cases hn : p.Name with
  | none => simp [hn] at hm
  | some name =>
      cases hio : p.IOCounters with
      | none => simp [hn, hio] at hm
      | some io =>
          simp only [hn, hio] at hm
          split at hm
          · simp only [List.mem_cons, List.mem_singleton, List.not_mem_nil, or_false] at hm
            rcases hm with h | h
            · left; rw [h]; rfl
            · right; rw [h]; rfl
          · simp at hm

theorem collectProcessNetworkStats_desc (processes : Option (List Process)) (errors : Nat) :
    ∀ m ∈ (collectProcessNetworkStats processes errors).1,
      m.desc = netBytesRecvDesc ∨ m.desc = netBytesSentDesc := by
  intro m hm
  cases processes with
  | none => simp [collectProcessNetworkStats] at hm
  | some ps =>
      simp only [collectProcessNetworkStats, List.mem_flatMap] at hm
      obtain ⟨p, _, hp⟩ := hm
      exact processNetworkStats_desc p m hp

theorem collectNetworkActivity_desc (processes : Option (List Process)) (errors : Nat) :
    ∀ m ∈ (collectNetworkActivity processes errors).1, m.desc = networkActivityDesc := by
  intro m hm
  cases processes with
  | none => simp [collectNetworkActivity] at hm
  | some ps =>
      simp only [collectNetworkActivity, List.mem_flatMap] at hm
      obtain ⟨p, _, rec, _, hrec⟩ := hm
      simp only [activityMetrics, List.mem_cons, List.mem_singleton, List.not_mem_nil,
        or_false] at hrec
      rcases hrec with h | h | h <;> rw [h] <;> rfl

/-- The records of `collectProcessNetworkStats` do not depend on the counter. -/
theorem collectProcessNetworkStats_records (processes : Option (List Process)) (e1 e2 : Nat) :
    (collectProcessNetworkStats processes e1).1 = (collectProcessNetworkStats processes e2).1 := by
  cases processes <;> rfl

/-- The records of `collectNetworkActivity` do not depend on the counter. -/
theorem collectNetworkActivity_records (processes : Option (List Process)) (e1 e2 : Nat) :
    (collectNetworkActivity processes e1).1 = (collectNetworkActivity processes e2).1 := by
  cases processes <;> rfl

/-- The number of increments of `collectProcessNetworkStats`. -/
theorem collectProcessNetworkStats_counter (processes : Option (List Process)) (e : Nat) :
    (collectProcessNetworkStats processes e).2
      = e + (collectProcessNetworkStats processes 0).2 := by
  cases processes <;> simp [collectProcessNetworkStats]

/-- The number of increments of `collectNetworkActivity`. -/
theorem collectNetworkActivity_counter (processes : Option (List Process)) (e : Nat) :
    (collectNetworkActivity processes e).2 = e + (collectNetworkActivity processes 0).2 := by
  cases processes <;> simp [collectNetworkActivity]

theorem getTCPConnections_sizing_failure (api : TcpTableApi) (newProcess : Int → Option Process)
    (h0 : api.sizeQuery.1 ≠ 0) (h122 : api.sizeQuery.1 ≠ ERROR_INSUFFICIENT_BUFFER) :
    getTCPConnections api newProcess
      = Exec.ret (Except.error (TableError.sizeQueryFailed api.sizeQuery.1)) := by
  simp [getTCPConnections, GetExtendedTcpTable, h0, h122]

/-- C5: when the sizing query fails with an error other than "buffer too
small", the decoder stage sends no connection record and increments the error
counter by exactly 1; the later stages of `Collect` and the pool resource
collector still run, and their records are the ones of a run in which the
decode succeeds (there the connection records take the place of the error
record and the counter ends one lower). -/
theorem scrape_sizing_failure (env : Env) (poolProcesses : Option (List Process))
    (c poolErrors : Nat)
    (h0 : env.api.sizeQuery.1 ≠ 0)
    (h122 : env.api.sizeQuery.1 ≠ ERROR_INSUFFICIENT_BUFFER) :
    collectTCPConnections env.api env.newProcess c
      = Exec.ret ([errorsMetric], c + 1) ∧
    ∃ (m2 m3 : List Metric) (e : Nat),
      m2 = (collectProcessNetworkStats env.statsProcesses c).1 ∧
      m3 = (collectNetworkActivity env.activityProcesses c).1 ∧
      e = (collectNetworkActivity env.activityProcesses
            (collectProcessNetworkStats env.statsProcesses c).2).2 ∧
      Collect env c = Exec.ret (errorsMetric :: (m2 ++ m3), e + 1) ∧
      (∀ m ∈ errorsMetric :: (m2 ++ m3), m.desc ≠ connectionsDesc) ∧
      exporter.scrape env poolProcesses c poolErrors
        = Exec.ret ((errorsMetric :: (m2 ++ m3), e + 1),
            poolrescollector.Collect poolProcesses poolErrors) ∧
      ∀ (api2 : TcpTableApi) (connections : List ConnectionStats),
        getTCPConnections api2 env.newProcess = Exec.ret (Except.ok connections) →
        exporter.scrape { env with api := api2 } poolProcesses c poolErrors
          = Exec.ret ((connections.map connectionMetric ++ (m2 ++ m3), e),
              poolrescollector.Collect poolProcesses poolErrors) := by
  have hdec := getTCPConnections_sizing_failure env.api env.newProcess h0 h122
  have hstage : collectTCPConnections env.api env.newProcess c
      = Exec.ret ([errorsMetric], c + 1) := by
    simp only [collectTCPConnections, hdec]
  have hcollect : Collect env c
      = Exec.ret (errorsMetric ::
          ((collectProcessNetworkStats env.statsProcesses c).1
            ++ (collectNetworkActivity env.activityProcesses c).1),
          (collectNetworkActivity env.activityProcesses
            (collectProcessNetworkStats env.statsProcesses c).2).2 + 1) := by
    simp only [Collect, hstage]
    rw [collectProcessNetworkStats_records env.statsProcesses (c + 1) c,
      collectNetworkActivity_records env.activityProcesses _ c,
      collectNetworkActivity_counter env.activityProcesses
        (collectProcessNetworkStats env.statsProcesses (c + 1)).2,
      collectNetworkActivity_counter env.activityProcesses
        (collectProcessNetworkStats env.statsProcesses c).2,
      collectProcessNetworkStats_counter env.statsProcesses (c + 1),
      collectProcessNetworkStats_counter env.statsProcesses c]
    simp only [List.singleton_append, List.cons_append, List.nil_append, List.append_assoc]
    congr 2
    omega
  refine ⟨hstage, _, _, _, rfl, rfl, rfl, hcollect, ?_, ?_, ?_⟩
  · intro m hm
    rcases List.mem_cons.mp hm with h | h
    · rw [h]
      show errorsDesc ≠ connectionsDesc
      decide
    · rcases List.mem_append.mp h with h2 | h3
      · rcases collectProcessNetworkStats_desc _ _ m h2 with hd | hd <;> rw [hd] <;> decide
      · rw [collectNetworkActivity_desc _ _ m h3]; decide
  · simp only [exporter.scrape, hcollect]
  · intro api2 connections hok
    have hstage2 : collectTCPConnections api2 env.newProcess c
        = Exec.ret (connections.map connectionMetric, c) := by
      simp only [collectTCPConnections, hok]
    simp only [exporter.scrape, Collect, hstage2, List.append_assoc]
    rw [collectNetworkActivity_records env.activityProcesses _ c]

/-- Witness of C5: the sizing query fails with code 5 while `busyProcess` is
running. -/
theorem scrape_sizing_failure_witness :
    collectTCPConnections examples.failingBusyEnv.api examples.failingBusyEnv.newProcess 0
      = Exec.ret ([errorsMetric], 0 + 1) ∧
    ∃ (m2 m3 : List Metric) (e : Nat),
      m2 = (collectProcessNetworkStats examples.failingBusyEnv.statsProcesses 0).1 ∧
      m3 = (collectNetworkActivity examples.failingBusyEnv.activityProcesses 0).1 ∧
      e = (collectNetworkActivity examples.failingBusyEnv.activityProcesses
            (collectProcessNetworkStats examples.failingBusyEnv.statsProcesses 0).2).2 ∧
      Collect examples.failingBusyEnv 0 = Exec.ret (errorsMetric :: (m2 ++ m3), e + 1) ∧
      (∀ m ∈ errorsMetric :: (m2 ++ m3), m.desc ≠ connectionsDesc) ∧
      exporter.scrape examples.failingBusyEnv (some [examples.busyProcess]) 0 0
        = Exec.ret ((errorsMetric :: (m2 ++ m3), e + 1),
            poolrescollector.Collect (some [examples.busyProcess]) 0) ∧
      ∀ (api2 : TcpTableApi) (connections : List ConnectionStats),
        getTCPConnections api2 examples.failingBusyEnv.newProcess
          = Exec.ret (Except.ok connections) →
        exporter.scrape { examples.failingBusyEnv with api := api2 }
            (some [examples.busyProcess]) 0 0
          = Exec.ret ((connections.map connectionMetric ++ (m2 ++ m3), e),
              poolrescollector.Collect (some [examples.busyProcess]) 0) :=
  scrape_sizing_failure examples.failingBusyEnv (some [examples.busyProcess]) 0 0
    (by decide) (by decide)

theorem collectProcessNetworkStats_value (processes : Option (List Process)) (errors : Nat) :
    ∀ m ∈ (collectProcessNetworkStats processes errors).1, ∃ n, m.value = Value.ofUint64 n := by
  intro m hm
  cases processes with
  | none => simp [collectProcessNetworkStats] at hm
  | some ps =>
      simp only [collectProcessNetworkStats, List.mem_flatMap] at hm
      obtain ⟨p, _, hp⟩ := hm
      unfold processNetworkStats at hp
      cases hn : p.Name with
      | none => simp [hn] at hp
      | some name =>
          cases hio : p.IOCounters with
          | none => simp [hn, hio] at hp
          | some io =>
              simp only [hn, hio] at hp
              split at hp
              · simp only [List.mem_cons, List.mem_singleton, List.not_mem_nil, or_false] at hp
                rcases hp with h | h <;> rw [h] <;> exact ⟨_, rfl⟩
              · simp at hp

theorem collectNetworkActivity_value (processes : Option (List Process)) (errors : Nat) :
    ∀ m ∈ (collectNetworkActivity processes errors).1, ∃ n, m.value = Value.ofUint64 n := by
  intro m hm
  cases processes with
  | none => simp [collectNetworkActivity] at hm
  | some ps =>
      simp only [collectNetworkActivity, List.mem_flatMap] at hm
      obtain ⟨p, _, rec, _, hrec⟩ := hm
      simp only [activityMetrics, List.mem_cons, List.mem_singleton, List.not_mem_nil,
        or_false] at hrec
      rcases hrec with h | h | h <;> rw [h] <;> exact ⟨_, rfl⟩

/-- No record of the two later stages is the error counter. -/
theorem later_stages_no_counter (env : Env) (e1 : Nat) :
    ∀ m ∈ (collectProcessNetworkStats env.statsProcesses e1).1
      ++ (collectNetworkActivity env.activityProcesses
            (collectProcessNetworkStats env.statsProcesses e1).2).1,
      m.value ≠ Value.counter ∧ m.desc ≠ errorsDesc := by
  intro m hm
  rcases List.mem_append.mp hm with h2 | h3
  · obtain ⟨n, hv⟩ := collectProcessNetworkStats_value _ _ m h2
    refine ⟨by rw [hv]; exact Value.noConfusion, ?_⟩
    rcases collectProcessNetworkStats_desc _ _ m h2 with hd | hd <;> rw [hd] <;> decide
  · obtain ⟨n, hv⟩ := collectNetworkActivity_value _ _ m h3
    refine ⟨by rw [hv]; exact Value.noConfusion, ?_⟩
    rw [collectNetworkActivity_desc _ _ m h3]; decide

/-- C8 (as amended): when the decoder returns, the records sent by `Collect`
are the records of its three stages.  When the decode fails, exactly one of
them is the error counter: the first stage sends the counter itself, so the
value it shows is the one the counter holds when the record is written out,
and written after the sample that is the value after all increments of the
sample.  When the decode and both process enumerations succeed, the counter
is not incremented and no record sent carries it. -/
theorem Collect_records (env : Env) (c : Nat) (r : Except TableError (List ConnectionStats))
    (h : getTCPConnections env.api env.newProcess = Exec.ret r) :
    ∃ (m1 m2 m3 : List Metric) (e1 e2 e3 : Nat),
      collectTCPConnections env.api env.newProcess c = Exec.ret (m1, e1) ∧
      collectProcessNetworkStats env.statsProcesses e1 = (m2, e2) ∧
      collectNetworkActivity env.activityProcesses e2 = (m3, e3) ∧
      Collect env c = Exec.ret (m1 ++ m2 ++ m3, e3) ∧
      (∀ err, r = Except.error err →
        m1 = [errorsMetric] ∧ e1 = c + 1 ∧ c + 1 ≤ e3 ∧
        (m1 ++ m2 ++ m3).filter (fun m => decide (m.value = Value.counter)) = [errorsMetric] ∧
        (∀ errorsNow, errorsMetric.write errorsNow = (errorsDesc, Reading.count errorsNow, [])) ∧
        errorsMetric.write e3 = (errorsDesc, Reading.count e3, [])) ∧
      (∀ connections, r = Except.ok connections →
        m1 = connections.map connectionMetric ∧ e1 = c ∧
        ((∃ ps, env.statsProcesses = some ps) → (∃ ps, env.activityProcesses = some ps) →
          e3 = c ∧ ∀ m ∈ m1 ++ m2 ++ m3, m.value ≠ Value.counter ∧ m.desc ≠ errorsDesc)) := by
  cases r with
  | error err =>
      have hstage : collectTCPConnections env.api env.newProcess c
          = Exec.ret ([errorsMetric], c + 1) := by
        simp only [collectTCPConnections, h]
      refine ⟨[errorsMetric], (collectProcessNetworkStats env.statsProcesses (c + 1)).1,
        (collectNetworkActivity env.activityProcesses
          (collectProcessNetworkStats env.statsProcesses (c + 1)).2).1,
        c + 1, (collectProcessNetworkStats env.statsProcesses (c + 1)).2,
        (collectNetworkActivity env.activityProcesses
          (collectProcessNetworkStats env.statsProcesses (c + 1)).2).2,
        hstage, rfl, rfl, ?_, ?_, ?_⟩
      · simp only [Collect, hstage]
      · intro err2 _
        refine ⟨rfl, rfl, ?_, ?_, fun _ => rfl, rfl⟩
        · rw [collectNetworkActivity_counter, collectProcessNetworkStats_counter]
          omega
        · rw [List.append_assoc, List.singleton_append,
            List.filter_cons_of_pos (by decide)]
          congr 1
          rw [List.filter_eq_nil_iff]
          intro m hm
          have := (later_stages_no_counter env (c + 1) m hm).1
          simpa using this
      · intro connections hc; cases hc
  | ok connections =>
      have hstage : collectTCPConnections env.api env.newProcess c
          = Exec.ret (connections.map connectionMetric, c) := by
        simp only [collectTCPConnections, h]
      refine ⟨connections.map connectionMetric,
        (collectProcessNetworkStats env.statsProcesses c).1,
        (collectNetworkActivity env.activityProcesses
          (collectProcessNetworkStats env.statsProcesses c).2).1,
        c, (collectProcessNetworkStats env.statsProcesses c).2,
        (collectNetworkActivity env.activityProcesses
          (collectProcessNetworkStats env.statsProcesses c).2).2,
        hstage, rfl, rfl, ?_, ?_, ?_⟩
      · simp only [Collect, hstage]
      · intro err hc; cases hc
      · intro connections2 hc
        cases hc
        refine ⟨rfl, rfl, ?_⟩
        rintro ⟨ps2, hps2⟩ ⟨ps3, hps3⟩
        refine ⟨by simp [hps2, hps3, collectProcessNetworkStats, collectNetworkActivity], ?_⟩
        intro m hm
        rw [List.append_assoc] at hm
        rcases List.mem_append.mp hm with h1 | h1
        · obtain ⟨conn, _, hconn⟩ := List.mem_map.mp h1
          rw [← hconn]
          exact ⟨Value.noConfusion, by show connectionsDesc ≠ errorsDesc; decide⟩
        · exact later_stages_no_counter env c m h1

/-- Witness of C8 (as amended) on a run in which the decoder fails and the
process enumeration of the second stage fails too: the one record sent is the
error counter, the counter ends at 2, and that is what the record shows when
written after the sample. -/
theorem Collect_records_witness :
    (∃ (m1 m2 m3 : List Metric) (e1 e2 e3 : Nat),
      collectTCPConnections examples.failingEnv.api examples.failingEnv.newProcess 0
        = Exec.ret (m1, e1) ∧
      collectProcessNetworkStats examples.failingEnv.statsProcesses e1 = (m2, e2) ∧
      collectNetworkActivity examples.failingEnv.activityProcesses e2 = (m3, e3) ∧
      Collect examples.failingEnv 0 = Exec.ret (m1 ++ m2 ++ m3, e3) ∧
      (∀ err, (Except.error (TableError.sizeQueryFailed 5) :
            Except TableError (List ConnectionStats)) = Except.error err →
        m1 = [errorsMetric] ∧ e1 = 0 + 1 ∧ 0 + 1 ≤ e3 ∧
        (m1 ++ m2 ++ m3).filter (fun m => decide (m.value = Value.counter)) = [errorsMetric] ∧
        (∀ errorsNow, errorsMetric.write errorsNow = (errorsDesc, Reading.count errorsNow, [])) ∧
        errorsMetric.write e3 = (errorsDesc, Reading.count e3, [])) ∧
      (∀ connections, (Except.error (TableError.sizeQueryFailed 5) :
            Except TableError (List ConnectionStats)) = Except.ok connections →
        m1 = connections.map connectionMetric ∧ e1 = 0 ∧
        ((∃ ps, examples.failingEnv.statsProcesses = some ps) →
          (∃ ps, examples.failingEnv.activityProcesses = some ps) →
          e3 = 0 ∧ ∀ m ∈ m1 ++ m2 ++ m3, m.value ≠ Value.counter ∧ m.desc ≠ errorsDesc))) ∧
    Collect examples.failingEnv 0 = Exec.ret ([errorsMetric], 2) ∧
    errorsMetric.write 2 = (errorsDesc, Reading.count 2, []) :=
  ⟨Collect_records examples.failingEnv 0 (Except.error (TableError.sizeQueryFailed 5)) rfl,
    rfl, rfl⟩

/-- C8 (counterexample): a run that decodes an empty table and finds no
process sends no record at all, so none carrying the error counter. -/
theorem Collect_without_counter_record :
    Collect examples.quietEnv 0 = Exec.ret ([], 0) ∧
    (∀ out e, Collect examples.quietEnv 0 = Exec.ret (out, e) →
      errorsMetric ∉ out ∧ ∀ m ∈ out, m.value ≠ Value.counter) := by
  refine ⟨rfl, ?_⟩
  intro out e h
  have h2 : Collect examples.quietEnv 0 = Exec.ret ([], 0) := rfl
  rw [h2] at h
  cases h
  simp

/-- A run that decodes an empty table while the process enumeration of the
second stage fails: the counter is incremented and no record is sent. -/
theorem Collect_increment_without_record :
    Collect examples.statsFailEnv 0 = Exec.ret ([], 1) :=
  rfl

/-! ## Properties: the pool resource collector -/

/-- C7: `getProcessStats` fails exactly when the name lookup or the
memory-info lookup fails, and then the process contributes no record to
`Collect`; otherwise it returns the record with the looked-up pid, name, RSS
and VMS, the username or "unknown", the CPU percent or 0, and the read/write
bytes or 0/0, and the process contributes the five records of that record. -/
theorem getProcessStats_required_optional (p : Process) :
    (poolrescollector.getProcessStats p = none ↔ p.Name = none ∨ p.MemoryInfo = none) ∧
    (poolrescollector.getProcessStats p = none →
      ∀ (before after : List Process) (errors : Nat),
        poolrescollector.Collect (some (before ++ p :: after)) errors
          = poolrescollector.Collect (some (before ++ after)) errors) ∧
    (∀ (name : String) (memInfo : MemoryInfoStat),
      p.Name = some name → p.MemoryInfo = some memInfo →
      poolrescollector.getProcessStats p = some
        { PID := p.Pid,
          ProcessName := name,
          Username := p.Username.getD "unknown",
          CPUPercent := p.CPUPercent.getD Float64.zero,
          MemoryRSS := memInfo.RSS,
          MemoryVMS := memInfo.VMS,
          ReadBytes := (p.IOCounters.map (fun io => io.ReadBytes)).getD 0,
          WriteBytes := (p.IOCounters.map (fun io => io.WriteBytes)).getD 0 }) ∧
    (∀ stats, poolrescollector.getProcessStats p = some stats →
      ∀ (before after : List Process) (errors : Nat),
        (poolrescollector.Collect (some (before ++ p :: after)) errors).1
          = (poolrescollector.Collect (some before) errors).1
            ++ poolrescollector.statsMetrics stats
            ++ (poolrescollector.Collect (some after) errors).1) := by
  refine ⟨?_, ?_, ?_, ?_⟩
  · unfold poolrescollector.getProcessStats
    cases hn : p.Name with
    | none => simp
    | some name =>
        cases hm : p.MemoryInfo with
        | none => simp
        | some memInfo => simp
  · intro h before after errors
    simp [poolrescollector.Collect, poolrescollector.processMetrics, h]
  · intro name memInfo hn hm
    unfold poolrescollector.getProcessStats
    simp only [hn, hm]
    cases p.Username <;> cases p.CPUPercent <;> cases p.IOCounters <;> rfl
  · intro stats h before after errors
    simp [poolrescollector.Collect, poolrescollector.processMetrics, h]

/-- The process of the specification's example: the CPU lookup fails, the
record is built with CPU percent 0; without memory info there is no record. -/
theorem getProcessStats_examples :
    poolrescollector.getProcessStats examples.noCpuProcess = some
      { PID := 11, ProcessName := "idle.exe", Username := "bob", CPUPercent := Float64.zero,
        MemoryRSS := 10, MemoryVMS := 20, ReadBytes := 3, WriteBytes := 4 } ∧
    poolrescollector.getProcessStats examples.hugeProcess = none ∧
    (poolrescollector.Collect (some [examples.hugeProcess, examples.noCpuProcess]) 0).1
      = poolrescollector.statsMetrics
          { PID := 11, ProcessName := "idle.exe", Username := "bob", CPUPercent := Float64.zero,
            MemoryRSS := 10, MemoryVMS := 20, ReadBytes := 3, WriteBytes := 4 } := by
  decide

/-! ## Properties: the activity map -/

theorem addConnection_eq (pid : Int) (name : String) (io : IOCountersStat)
    (m : AddressMap) (conn : ConnectionStat) :
    addConnection pid name io m conn =
      if selectAddr conn = "" then m
      else AddressMap.set m (selectAddr conn) (activityRecord pid name io (selectAddr conn)) :=
  rfl

/-- Storing the canonical entry of a key in a map of canonical entries leaves
the map unchanged when the key is present and appends the entry otherwise. -/
theorem set_activityRecord (pid : Int) (name : String) (io : IOCountersStat) (k : String) :
    ∀ m : AddressMap, (∀ e ∈ m, e.2 = activityRecord pid name io e.1) →
      AddressMap.set m k (activityRecord pid name io k) =
        if k ∈ m.map Prod.fst then m else m ++ [(k, activityRecord pid name io k)] := by
  intro m
  induction m with
  | nil => intro _; simp [AddressMap.set]
  | cons e rest ih =>
      intro hm
      obtain ⟨k2, w⟩ := e
      have hw : w = activityRecord pid name io k2 := hm (k2, w) (List.mem_cons_self _ _)
      have hrest : ∀ e ∈ rest, e.2 = activityRecord pid name io e.1 :=
        fun e he => hm e (List.mem_cons_of_mem _ he)
      by_cases hk : k2 = k
      · subst hk
        simp [AddressMap.set, hw]
      · have hk2 : ¬ k = k2 := fun h => hk h.symm
        simp only [AddressMap.set, hk, if_false, ih hrest, List.map_cons, List.mem_cons, hk2,
          false_or]
        split <;> simp

/-- The invariant of the connection loop: the keys are distinct, non-empty
selected addresses of connections seen so far, every entry is the canonical
entry of its key, and every non-empty selected address seen so far is a key. -/
theorem addressStats_invariant (pid : Int) (name : String) (io : IOCountersStat)
    (connections : List ConnectionStat) :
    ∀ (seen : List ConnectionStat) (m : AddressMap),
      (m.map Prod.fst).Nodup →
      (∀ e ∈ m, e.2 = activityRecord pid name io e.1) →
      (∀ k, k ∈ m.map Prod.fst ↔ k ≠ "" ∧ ∃ conn ∈ seen, selectAddr conn = k) →
      ((connections.foldl (addConnection pid name io) m).map Prod.fst).Nodup ∧
      (∀ e ∈ connections.foldl (addConnection pid name io) m,
        e.2 = activityRecord pid name io e.1) ∧
      (∀ k, k ∈ (connections.foldl (addConnection pid name io) m).map Prod.fst ↔
        k ≠ "" ∧ ∃ conn ∈ seen ++ connections, selectAddr conn = k) := by
  induction connections with
  | nil =>
      intro seen m h1 h2 h3
      simp only [List.foldl_nil, List.append_nil]
      exact ⟨h1, h2, h3⟩
  | cons conn rest ih =>
      intro seen m h1 h2 h3
      have key : ∀ m2 : AddressMap, (m2.map Prod.fst).Nodup →
          (∀ e ∈ m2, e.2 = activityRecord pid name io e.1) →
          (∀ k, k ∈ m2.map Prod.fst ↔ k ≠ "" ∧ ∃ c ∈ seen ++ [conn], selectAddr c = k) →
          ((rest.foldl (addConnection pid name io) m2).map Prod.fst).Nodup ∧
          (∀ e ∈ rest.foldl (addConnection pid name io) m2,
            e.2 = activityRecord pid name io e.1) ∧
          (∀ k, k ∈ (rest.foldl (addConnection pid name io) m2).map Prod.fst ↔
            k ≠ "" ∧ ∃ c ∈ seen ++ conn :: rest, selectAddr c = k) := by
        intro m2 g1 g2 g3
        have := ih (seen ++ [conn]) m2 g1 g2 g3
        simpa only [List.append_assoc, List.singleton_append] using this
      rw [List.foldl_cons, addConnection_eq]
      by_cases hempty : selectAddr conn = ""
      · rw [if_pos hempty]
        apply key m h1 h2
        intro k
        rw [h3 k]
        constructor
        · rintro ⟨hk, c, hc, hck⟩
          exact ⟨hk, c, List.mem_append_left _ hc, hck⟩
        · rintro ⟨hk, c, hc, hck⟩
          rcases List.mem_append.mp hc with hc | hc
          · exact ⟨hk, c, hc, hck⟩
          · rw [List.mem_singleton] at hc
            subst hc
            exact absurd (hck ▸ hempty) hk
      · rw [if_neg hempty, set_activityRecord pid name io (selectAddr conn) m h2]
        by_cases hmem : selectAddr conn ∈ m.map Prod.fst
        · rw [if_pos hmem]
          apply key m h1 h2
          intro k
          constructor
          · intro hk
            obtain ⟨hk1, c, hc, hck⟩ := (h3 k).mp hk
            exact ⟨hk1, c, List.mem_append_left _ hc, hck⟩
          · rintro ⟨hk, c, hc, hck⟩
            rcases List.mem_append.mp hc with hc | hc
            · exact (h3 k).mpr ⟨hk, c, hc, hck⟩
            · rw [List.mem_singleton] at hc
              subst hc
              rw [← hck]
              exact hmem
        · rw [if_neg hmem]
          apply key
          · rw [List.map_append, List.nodup_append]
            refine ⟨h1, by simp, ?_⟩
            intro a ha hb
            simp only [List.map_cons, List.map_nil, List.mem_singleton] at hb
            exact hmem (hb ▸ ha)
          · intro e he
            rcases List.mem_append.mp he with he | he
            · exact h2 e he
            · rw [List.mem_singleton] at he
              rw [he]
          · intro k
            rw [List.map_append, List.mem_append]
            constructor
            · rintro (hk | hk)
              · obtain ⟨hk1, c, hc, hck⟩ := (h3 k).mp hk
                exact ⟨hk1, c, List.mem_append_left _ hc, hck⟩
              · simp only [List.map_cons, List.map_nil, List.mem_singleton] at hk
                subst hk
                exact ⟨hempty, conn, by simp, rfl⟩
            · rintro ⟨hk, c, hc, hck⟩
              rcases List.mem_append.mp hc with hc | hc
              · exact Or.inl ((h3 k).mpr ⟨hk, c, hc, hck⟩)
              · rw [List.mem_singleton] at hc
                subst hc
                right
                simp [hck]

/-- The activity records of a process whose lookups all succeed: their
addresses are distinct, they are the non-empty selected addresses of its
connections, and each record is the canonical entry of its address. -/
theorem processActivity_characterisation (p : Process) (connections : List ConnectionStat)
    (name : String) (io : IOCountersStat)
    (hc : p.Connections = some connections) (hn : p.Name = some name)
    (hio : p.IOCounters = some io) :
    ((processActivity p).map (fun r => r.Address)).Nodup ∧
    (∀ r ∈ processActivity p, r = activityRecord p.Pid name io r.Address) ∧
    (∀ a, a ∈ (processActivity p).map (fun r => r.Address) ↔
      a ≠ "" ∧ ∃ conn ∈ connections, selectAddr conn = a) := by
  obtain ⟨h1, h2, h3⟩ := addressStats_invariant p.Pid name io connections [] []
    (by simp) (by simp) (by simp)
  have hpa : processActivity p
      = (connections.foldl (addConnection p.Pid name io) []).map Prod.snd := by
    simp only [processActivity, hc, hn, hio, addressStatsOf]
  have haddr : (processActivity p).map (fun r => r.Address)
      = (connections.foldl (addConnection p.Pid name io) []).map Prod.fst := by
    rw [hpa, List.map_map]
    apply List.map_congr_left
    intro e he
    simp only [Function.comp_apply, h2 e he, activityRecord]
  refine ⟨by rw [haddr]; exact h1, ?_, ?_⟩
  · intro r hr
    rw [hpa] at hr
    obtain ⟨e, he, her⟩ := List.mem_map.mp hr
    have := h2 e he
    rw [← her, this]
    rfl
  · intro a
    rw [haddr, h3 a]
    simp only [List.nil_append]

theorem processActivity_address_ne_empty (p : Process) :
    ∀ r ∈ processActivity p, r.Address ≠ "" := by
  intro r hr
  cases hc : p.Connections with
  | none => simp [processActivity, hc] at hr
  | some connections =>
      cases hn : p.Name with
      | none => simp [processActivity, hc, hn] at hr
      | some name =>
          cases hio : p.IOCounters with
          | none => simp [processActivity, hc, hn, hio] at hr
          | some io =>
              obtain ⟨_, _, h3⟩ := processActivity_characterisation p connections name io hc hn hio
              exact ((h3 r.Address).mp (List.mem_map_of_mem _ hr)).1

/-- C6 (as amended): for a process whose connection list, name and I/O
counters are obtained, `collectNetworkActivity` builds exactly one activity
record per distinct non-empty selected address, however many connections touch
it, and every record has send = w, receive = r and total = (w + r) mod 2^64,
which is w + r when that sum fits 64 bits; two connections to two different
non-wildcard addresses with r = 100, w = 50 yield two records, both with
send = 50, receive = 100, total = 150. -/
theorem processActivity_one_record_per_address (p : Process)
    (connections : List ConnectionStat) (name : String) (io : IOCountersStat)
    (hc : p.Connections = some connections) (hn : p.Name = some name)
    (hio : p.IOCounters = some io) :
    ((processActivity p).map (fun r => r.Address)).Nodup ∧
    (∀ a, a ∈ (processActivity p).map (fun r => r.Address) ↔
      a ≠ "" ∧ ∃ conn ∈ connections, selectAddr conn = a) ∧
    (∀ r ∈ processActivity p,
      r.PID = p.Pid ∧ r.ProcessName = name ∧ r.SendBytes = io.WriteBytes ∧
      r.RecvBytes = io.ReadBytes ∧ r.TotalBytes = (io.WriteBytes + io.ReadBytes) % 2 ^ 64 ∧
      (io.WriteBytes + io.ReadBytes < 2 ^ 64 → r.TotalBytes = io.WriteBytes + io.ReadBytes)) ∧
    (∀ l1 l2 r1 r2 : Addr, ¬ isWildcard l1.IP → ¬ isWildcard l2.IP → l1.IP ≠ l2.IP →
      connections = [⟨l1, r1⟩, ⟨l2, r2⟩] → io = ⟨100, 50⟩ →
      processActivity p =
        [ { PID := p.Pid, ProcessName := name, Address := l1.IP,
            SendBytes := 50, RecvBytes := 100, TotalBytes := 150 },
          { PID := p.Pid, ProcessName := name, Address := l2.IP,
            SendBytes := 50, RecvBytes := 100, TotalBytes := 150 } ]) := by
  obtain ⟨h1, h2, h3⟩ := processActivity_characterisation p connections name io hc hn hio
  refine ⟨h1, h3, ?_, ?_⟩
  · intro r hr
    have hrec := h2 r hr
    have e1 : r.PID = p.Pid := by rw [hrec]; rfl
    have e2 : r.ProcessName = name := by rw [hrec]; rfl
    have e3 : r.SendBytes = io.WriteBytes := by rw [hrec]; rfl
    have e4 : r.RecvBytes = io.ReadBytes := by rw [hrec]; rfl
    have e5 : r.TotalBytes = (io.WriteBytes + io.ReadBytes) % 2 ^ 64 := by rw [hrec]; rfl
    exact ⟨e1, e2, e3, e4, e5, fun hlt => by rw [e5, Nat.mod_eq_of_lt hlt]⟩
  · intro l1 l2 r1 r2 hw1 hw2 hne hconns hio2
    subst hconns hio2
    have s1 : selectAddr ⟨l1, r1⟩ = l1.IP := by
      simp only [selectAddr]
      exact if_neg hw1
    have s2 : selectAddr ⟨l2, r2⟩ = l2.IP := by
      simp only [selectAddr]
      exact if_neg hw2
    have n1 : l1.IP ≠ "" := fun h => hw1 (Or.inl h)
    have n2 : l2.IP ≠ "" := fun h => hw2 (Or.inl h)
    simp only [processActivity, hc, hn, hio, addressStatsOf, List.foldl_cons, List.foldl_nil,
      addConnection_eq, s1, s2, n1, n2, if_false, AddressMap.set, hne, List.map_cons,
      List.map_nil, activityRecord, addUint64]
    rfl

/-- Witness of C6 (as amended) on `examples.busyProcess`: two records, for
10.0.0.1 and 10.0.0.2, both with send 50, receive 100, total 150. -/
theorem processActivity_one_record_per_address_witness :
    processActivity examples.busyProcess =
      [ { PID := 4242, ProcessName := "svc.exe", Address := "10.0.0.1",
          SendBytes := 50, RecvBytes := 100, TotalBytes := 150 },
        { PID := 4242, ProcessName := "svc.exe", Address := "10.0.0.2",
          SendBytes := 50, RecvBytes := 100, TotalBytes := 150 } ] :=
  (processActivity_one_record_per_address examples.busyProcess
    [ { Laddr := ⟨"10.0.0.1", 5000⟩, Raddr := ⟨"93.184.216.34", 443⟩ },
      { Laddr := ⟨"10.0.0.2", 5001⟩, Raddr := ⟨"93.184.216.34", 443⟩ } ]
    "svc.exe" { ReadBytes := 100, WriteBytes := 50 } rfl rfl rfl).2.2.2
    ⟨"10.0.0.1", 5000⟩ ⟨"10.0.0.2", 5001⟩ ⟨"93.184.216.34", 443⟩ ⟨"93.184.216.34", 443⟩
    (by decide) (by decide) (by decide) rfl rfl

/-- C6 (counterexample): with read = write = 2^63 the record of the one
connection has total 0, not w + r = 2^64. -/
theorem processActivity_total_wraps :
    processActivity examples.hugeProcess =
      [ { PID := 7, ProcessName := "copy.exe", Address := "10.0.0.1",
          SendBytes := 2 ^ 63, RecvBytes := 2 ^ 63, TotalBytes := 0 } ] ∧
    ¬ (∀ r ∈ processActivity examples.hugeProcess, r.TotalBytes = 2 ^ 63 + 2 ^ 63) := by
  have h : processActivity examples.hugeProcess =
      [ { PID := 7, ProcessName := "copy.exe", Address := "10.0.0.1",
          SendBytes := 2 ^ 63, RecvBytes := 2 ^ 63, TotalBytes := 0 } ] := by
    decide
  refine ⟨h, ?_⟩
  rw [h]
  intro hall
  have := hall _ (List.mem_singleton.mpr rfl)
  revert this
  decide

/-- C10 (as amended): a connection is filed under its local address when
that is not a wildcard ("", "0.0.0.0", "::") and under its remote address
otherwise; a connection whose selected address is empty is skipped, every
other connection has the record of its selected address, and no activity
record or activity metric has an empty address label. -/
theorem collectNetworkActivity_address_selection (p : Process)
    (connections : List ConnectionStat) (name : String) (io : IOCountersStat)
    (hc : p.Connections = some connections) (hn : p.Name = some name)
    (hio : p.IOCounters = some io) :
    (∀ conn : ConnectionStat,
      (¬ isWildcard conn.Laddr.IP → selectAddr conn = conn.Laddr.IP) ∧
      (isWildcard conn.Laddr.IP → selectAddr conn = conn.Raddr.IP)) ∧
    (∀ (m : AddressMap) (conn : ConnectionStat), selectAddr conn = "" →
      addConnection p.Pid name io m conn = m) ∧
    (∀ conn ∈ connections, selectAddr conn ≠ "" →
      activityRecord p.Pid name io (selectAddr conn) ∈ processActivity p) ∧
    (∀ r ∈ processActivity p, r.Address ≠ "" ∧ ∃ conn ∈ connections, selectAddr conn = r.Address) ∧
    (∀ (processes : Option (List Process)) (errors : Nat),
      ∀ m ∈ (collectNetworkActivity processes errors).1,
        ∃ r : NetworkActivityStats, r.Address ≠ "" ∧ m ∈ activityMetrics r ∧
          m.labelValues[2]? = some r.Address) := by
  obtain ⟨h1, h2, h3⟩ := processActivity_characterisation p connections name io hc hn hio
  refine ⟨?_, ?_, ?_, ?_, ?_⟩
  · intro conn
    constructor
    · intro hw
      simp only [selectAddr]
      exact if_neg hw
    · intro hw
      simp only [selectAddr]
      exact if_pos hw
  · intro m conn hsel
    rw [addConnection_eq, if_pos hsel]
  · intro conn hconn hsel
    have hmem := (h3 (selectAddr conn)).mpr ⟨hsel, conn, hconn, rfl⟩
    obtain ⟨r, hr, hra⟩ := List.mem_map.mp hmem
    have := h2 r hr
    rw [hra] at this
    rw [← this]
    exact hr
  · intro r hr
    exact (h3 r.Address).mp (List.mem_map_of_mem _ hr)
  · intro processes errors m hm
    cases processes with
    | none => simp [collectNetworkActivity] at hm
    | some ps =>
        simp only [collectNetworkActivity, List.mem_flatMap] at hm
        obtain ⟨q, _, r, hr, hmr⟩ := hm
        refine ⟨r, processActivity_address_ne_empty q r hr, hmr, ?_⟩
        simp only [activityMetrics, List.mem_cons, List.mem_singleton, List.not_mem_nil,
          or_false] at hmr
        rcases hmr with h | h | h <;> rw [h] <;> rfl

/-- Witness of C10 (as amended) on `examples.busyProcess`. -/
theorem collectNetworkActivity_address_selection_witness :
    (∀ r ∈ processActivity examples.busyProcess, r.Address ≠ "") ∧
    activityRecord 4242 "svc.exe" { ReadBytes := 100, WriteBytes := 50 } "10.0.0.1"
      ∈ processActivity examples.busyProcess :=
  have h := collectNetworkActivity_address_selection examples.busyProcess
    [ { Laddr := ⟨"10.0.0.1", 5000⟩, Raddr := ⟨"93.184.216.34", 443⟩ },
      { Laddr := ⟨"10.0.0.2", 5001⟩, Raddr := ⟨"93.184.216.34", 443⟩ } ]
    "svc.exe" { ReadBytes := 100, WriteBytes := 50 } rfl rfl rfl
  ⟨fun r hr => (h.2.2.2.1 r hr).1,
    h.2.2.1 { Laddr := ⟨"10.0.0.1", 5000⟩, Raddr := ⟨"93.184.216.34", 443⟩ }
      (List.mem_cons_self _ _) (by decide)⟩

/-- C10 (counterexample): a listening socket, local and remote address both
"0.0.0.0", is not skipped: the process gets an activity record, and three
metrics, labelled with the wildcard address. -/
theorem listener_filed_under_wildcard :
    processActivity examples.listenerProcess =
      [ { PID := 900, ProcessName := "httpd.exe", Address := "0.0.0.0",
          SendBytes := 2, RecvBytes := 1, TotalBytes := 3 } ] ∧
    (collectNetworkActivity (some [examples.listenerProcess]) 0).1 =
      [ MustNewConstMetric networkActivityDesc (Value.ofUint64 2)
          ["900", "httpd.exe", "0.0.0.0", "send"],
        MustNewConstMetric networkActivityDesc (Value.ofUint64 1)
          ["900", "httpd.exe", "0.0.0.0", "receive"],
        MustNewConstMetric networkActivityDesc (Value.ofUint64 3)
          ["900", "httpd.exe", "0.0.0.0", "total"] ] := by
  constructor <;> decide
